import Mathlib

/-!
Verification of the EP_Forecasting repository.

This file gives a shallow embedding of the repository's two core subsystems:

* the ledger reconciliation engine (`src/add_forecast_to_inventory.py` and
  `src/helpers/clean_mi_export.py`), and
* the forecast engine (`src/PF_2020/PF_Schedule4_Forecaster.py`,
  `src/COALARA/Coalara_Forecaster/PF_Schedule4_Forecaster.py`,
  `src/PF_2020/Coalara_Forecaster/Coalara_Calculatorv2.py`),

and proves / refutes the specification's claims about them.

Modelling conventions:

* Python `float` amounts are modelled as exact rationals (`ℚ`); all amount
  arithmetic performed by the code under verification (sums, differences,
  multiplication by constants, `round(x, 2)`) is modelled exactly.
* `datetime.date` is modelled by a `Date` structure with the proleptic
  Gregorian calendar rules used by Python (`year/month/day`, lexicographic
  comparison, month lengths with leap years).
* openpyxl worksheets are modelled as a `Table := List (List Cell)`; row 1 is
  the header row; `ws.cell(row, col)` beyond a stored row's length reads as an
  empty cell (`Cell.none`), exactly as openpyxl returns empty cells there.
* Python exceptions are modelled by `Except PyError`; every `raise` site in the
  modelled code raises `ValueError`, carried with its message string.
-/

set_option maxHeartbeats 1000000
set_option maxRecDepth 100000

/- `Rat.add`/`mul`/`sub`/`inv` are marked irreducible in Batteries, which only
blocks elaboration-time reduction; the kernel reduces them regardless.  Restore
semireducibility locally so that concrete rational computations can be settled
by `decide`. -/
set_option allowUnsafeReducibility true
attribute [local semireducible] Rat.mul Rat.add Rat.sub Rat.inv

namespace EPF

/-! ### Dates (`datetime.date`) -/

/-- Proleptic Gregorian calendar date, as Python's `datetime.date`. -/
structure Date where
  year : Nat
  month : Nat
  day : Nat
deriving DecidableEq, Repr, Inhabited

/-- Gregorian leap-year rule (as `calendar.isleap` / `datetime`). -/
def isLeap (y : Nat) : Bool :=
  (y % 4 == 0 && y % 100 != 0) || y % 400 == 0

/-- Number of days in a month of a given year. -/
def daysInMonth (y m : Nat) : Nat :=
  if m = 2 then (if isLeap y then 29 else 28)
  else if m = 4 ∨ m = 6 ∨ m = 9 ∨ m = 11 then 30
  else 31

/-- Python `date.__lt__`: lexicographic on (year, month, day). -/
def Date.blt (a b : Date) : Bool :=
  a.year < b.year ||
    (a.year == b.year && (a.month < b.month ||
      (a.month == b.month && a.day < b.day)))

/-- Python `date.__le__`. -/
def Date.ble (a b : Date) : Bool := !(Date.blt b a)

/-- The day after `d` (`d + timedelta(days=1)`). -/
def Date.nextDay (d : Date) : Date :=
  if d.day < daysInMonth d.year d.month then ⟨d.year, d.month, d.day + 1⟩
  else if d.month < 12 then ⟨d.year, d.month + 1, 1⟩
  else ⟨d.year + 1, 1, 1⟩

/-- The day before `d` (`d - timedelta(days=1)`).  For `d = ⟨0,1,1⟩` the year
underflows at 0; Python would raise `OverflowError` below year 1, a region no
modelled computation reaches. -/
def Date.prevDay (d : Date) : Date :=
  if 1 < d.day then ⟨d.year, d.month, d.day - 1⟩
  else if 1 < d.month then ⟨d.year, d.month - 1, daysInMonth d.year (d.month - 1)⟩
  else ⟨d.year - 1, 12, 31⟩

/-- `d + timedelta(days=n)` for `n ≥ 0`. -/
def Date.addDays (d : Date) (n : Nat) : Date :=
  Date.nextDay^[n] d

/-- `d + timedelta(days=n)` for arbitrary integer `n`. -/
def Date.addDaysInt (d : Date) (n : Int) : Date :=
  if 0 ≤ n then d.addDays n.toNat else Date.prevDay^[n.natAbs] d

/-- `dateutil.relativedelta(years=n)` applied to `d`: add `n` to the year and
clamp the day to the length of the resulting month (Feb 29 → Feb 28). -/
def Date.addYears (d : Date) (n : Nat) : Date :=
  ⟨d.year + n, d.month, min d.day (daysInMonth (d.year + n) d.month)⟩

/-! ### Cell values

An openpyxl cell value as the reconciliation code observes it: empty, a
string, a number (Python `int`/`float`, modelled as one exact rational), or a
date/datetime (the code only ever uses the date part, cf. `_to_datetime`). -/

inductive Cell where
  | none
  | str (s : String)
  | num (q : ℚ)
  | date (d : Date)
deriving DecidableEq, Repr, Inhabited

/-- Whitespace test used by `str.strip()` (Python additionally strips some
unicode spaces, which never occur in the data handled here). -/
def isPyWS (c : Char) : Bool :=
  c = ' ' ∨ c = '\t' ∨ c = '\n' ∨ c = '\r' ∨ c = '\x0b' ∨ c = '\x0c'

/-- `str.strip()`. -/
def strTrim (s : String) : String :=
  String.mk (((s.toList.dropWhile isPyWS).reverse.dropWhile isPyWS).reverse)

/-- `str.lower()` (ASCII, which covers every header and id in the data). -/
def strLower (s : String) : String := String.mk (s.toList.map Char.toLower)

/-- Split a character list on a separator character. -/
def splitOnCharGo (sep : Char) : List Char → List (List Char)
  | [] => [[]]
  | c :: rest =>
    let r := splitOnCharGo sep rest
    if c = sep then [] :: r
    else
      match r with
      | h :: t => (c :: h) :: t
      | [] => [[c]]

/-- `str.split(sep)` for a one-character separator (the only form the date
parser uses). -/
def strSplitOn (s : String) (sep : Char) : List String :=
  (splitOnCharGo sep s.toList).map String.mk

/-- Zero-pad a number to two digits (for ISO date rendering). -/
def pad2 (n : Nat) : String :=
  if n < 10 then "0" ++ toString n else toString n

/-- `str(d)` for a Python `date`: ISO format `YYYY-MM-DD`. -/
def dateRepr (d : Date) : String :=
  toString d.year ++ "-" ++ pad2 d.month ++ "-" ++ pad2 d.day

/-- `str(x)` for a cell value.  Strings and dates render as in Python.
For numbers we render a canonical decimal-free form; CPython's `float`/`int`
`repr` differs in formatting, but no claim in this development depends on the
rendering of a numeric cell (it is only ever fed to `str.strip()`-style
normalisation, non-emptiness tests, or a float re-parse that succeeds). -/
def pyRepr : Cell → String
  | Cell.none => "None"
  | Cell.str s => s
  | Cell.num q => if q.den = 1 then toString q.num else toString q.num ++ "/" ++ toString q.den
  | Cell.date d => dateRepr d

/-- `_norm` (src/add_forecast_to_inventory.py:55): `""` for `None`, else
`str(x).strip()`. -/
def pyNorm : Cell → String
  | Cell.none => ""
  | v => strTrim (pyRepr v)

/-- `_lower_norm` (src/add_forecast_to_inventory.py:59). -/
def pyLowerNorm (v : Cell) : String := strLower (pyNorm v)

/-- `_lower_norm` applied to a plain Python string (as the code does with
header names). -/
def pyLowerStr (s : String) : String := strLower (strTrim s)

/-! ### Date parsing (`_to_datetime`) -/

/-- A valid `datetime.date` construction: year 1–9999, month 1–12, day within
the month.  `datetime.strptime` raises `ValueError` otherwise. -/
def mkValidDate (y m d : Nat) : Option Date :=
  if 1 ≤ y ∧ y ≤ 9999 ∧ 1 ≤ m ∧ m ≤ 12 ∧ 1 ≤ d ∧ d ≤ daysInMonth y m
  then some ⟨y, m, d⟩ else Option.none

/-- Digit list to value. -/
def digitsVal (l : List Char) : Nat :=
  l.foldl (fun a c => a * 10 + (c.toNat - 48)) 0

/-- All-digit check plus length bounds, as the `strptime` field regexes
(`%Y` = exactly four digits, `%m`/`%d` = one or two digits). -/
def digitsLen (lo hi : Nat) (s : String) : Option Nat :=
  if lo ≤ s.length ∧ s.length ≤ hi ∧ s ≠ "" ∧ s.toList.all Char.isDigit
  then some (digitsVal s.toList) else Option.none

/-- `datetime.strptime(s, "%Y-%m-%d")`. -/
def parseYMD (s : String) : Option Date :=
  match strSplitOn s '-' with
  | [ys, ms, ds] => do
    let y ← digitsLen 4 4 ys
    let m ← digitsLen 1 2 ms
    let d ← digitsLen 1 2 ds
    mkValidDate y m d
  | _ => Option.none

/-- `datetime.strptime(s, "%d/%m/%Y")`. -/
def parseDMY (s : String) : Option Date :=
  match strSplitOn s '/' with
  | [ds, ms, ys] => do
    let d ← digitsLen 1 2 ds
    let m ← digitsLen 1 2 ms
    let y ← digitsLen 4 4 ys
    mkValidDate y m d
  | _ => Option.none

/-- `datetime.strptime(s, "%m/%d/%Y")`. -/
def parseMDY (s : String) : Option Date :=
  match strSplitOn s '/' with
  | [ms, ds, ys] => do
    let m ← digitsLen 1 2 ms
    let d ← digitsLen 1 2 ds
    let y ← digitsLen 4 4 ys
    mkValidDate y m d
  | _ => Option.none

/-- The string branch of `_to_datetime`: strip, then try the three formats in
source order. -/
def parseDateStr (s : String) : Option Date :=
  let t := strTrim s
  (parseYMD t).orElse (fun _ => (parseDMY t).orElse (fun _ => parseMDY t))

/-- `int(v)` for a float `v`: truncation toward zero. -/
def truncInt (q : ℚ) : Int :=
  if 0 ≤ q then Rat.floor q else Rat.ceil q

/-- Excel's serial-date epoch, `datetime(1899, 12, 30)`. -/
def excelEpoch : Date := ⟨1899, 12, 30⟩

/-- `_to_datetime` (src/add_forecast_to_inventory.py:112): always a date or
`None`.  Dates/datetimes pass through; `int`/`float` are Excel serial dates
counted from 1899-12-30; strings are tried against the three formats; anything
else is `None`. -/
def _to_datetime : Cell → Option Date
  | Cell.none => Option.none
  | Cell.date d => some d
  | Cell.num q => some (excelEpoch.addDaysInt (truncInt q))
  | Cell.str s => parseDateStr s

/-! ### Float coercion (`_to_float`) -/

/-- Split a character list at the first occurrence of `'e'`/`'E'`. -/
def splitExp : List Char → List Char × Option (List Char)
  | [] => ([], Option.none)
  | c :: rest =>
    if c = 'e' ∨ c = 'E' then ([], some rest)
    else let (m, e) := splitExp rest
         (c :: m, e)

/-- Parse an optional sign followed by one-or-more digits (exponent part). -/
def parseSignedDigits (l : List Char) : Option Int :=
  match l with
  | '+' :: rest => if rest ≠ [] ∧ rest.all Char.isDigit then some (digitsVal rest) else Option.none
  | '-' :: rest => if rest ≠ [] ∧ rest.all Char.isDigit then some (-(digitsVal rest : Int)) else Option.none
  | rest => if rest ≠ [] ∧ rest.all Char.isDigit then some (digitsVal rest) else Option.none

/-- Split a character list at the first `'.'`. -/
def splitDot : List Char → List Char × Option (List Char)
  | [] => ([], Option.none)
  | c :: rest =>
    if c = '.' then ([], some rest)
    else let (m, e) := splitDot rest
         (c :: m, e)

/-- Parse an unsigned decimal mantissa `ddd`, `ddd.`, `.ddd` or `ddd.ddd`
(at least one digit overall). -/
def parseMantissa (l : List Char) : Option ℚ :=
  let (ip, fp) := splitDot l
  match fp with
  | Option.none =>
    if ip ≠ [] ∧ ip.all Char.isDigit then some (digitsVal ip) else Option.none
  | some fl =>
    if (ip ≠ [] ∨ fl ≠ []) ∧ ip.all Char.isDigit ∧ fl.all Char.isDigit ∧ (fl.contains '.' = false)
    then some ((digitsVal ip : ℚ) + (digitsVal fl : ℚ) / (10 : ℚ) ^ fl.length)
    else Option.none

/-- Python `float(s)` on an already-stripped string, restricted to finite
decimal literals: optional sign, decimal mantissa, optional exponent.
(CPython additionally accepts `inf`/`nan` and underscore digit separators;
those denote non-finite values or are cosmetic, and no claim depends on them.) -/
def pyFloat (s : String) : Option ℚ :=
  let l := s.toList
  let (sign, rest) :=
    match l with
    | '+' :: r => ((1 : ℚ), r)
    | '-' :: r => ((-1 : ℚ), r)
    | r => ((1 : ℚ), r)
  let (mant, expPart) := splitExp rest
  do
    let m ← parseMantissa mant
    match expPart with
    | Option.none => some (sign * m)
    | some el => do
      let e ← parseSignedDigits el
      some (sign * m * (10 : ℚ) ^ e)

/-- `str.replace(",", "")`. -/
def removeCommas (s : String) : String :=
  String.mk (s.toList.filter (fun c => c ≠ ','))

/-- `_to_float` (src/add_forecast_to_inventory.py:162): `None`/`""` → 0;
numbers pass through; otherwise `float(str(v).replace(",", "").strip())`
with any failure mapped to 0. -/
def _to_float : Cell → ℚ
  | Cell.none => 0
  | Cell.num q => q
  | v =>
    if v = Cell.str "" then 0
    else match pyFloat (strTrim (removeCommas (pyRepr v))) with
      | some q => q
      | Option.none => 0

/-! ### Worksheets as tables -/

/-- A worksheet: list of rows, row 1 (index 0) is the header row. -/
abbrev Table : Type := List (List Cell)

/-- `ws.cell(row=r, column=c).value` for a single row, 1-based column;
columns beyond the stored row read as empty. -/
def cellAt (row : List Cell) (c : Nat) : Cell :=
  row.getD (c - 1) Cell.none

/-- `ws.cell(row=r, column=c).value` on a table, 1-based row and column. -/
def cellAt2 (t : Table) (r c : Nat) : Cell :=
  cellAt ((t : List (List Cell)).getD (r - 1) []) c

/-- Pad a row with empty cells up to `n` columns. -/
def padTo (row : List Cell) (n : Nat) : List Cell :=
  row ++ List.replicate (n - row.length) Cell.none

/-- `ws.cell(row, column=c).value = v`: writing extends the stored row if
needed. -/
def setCell (row : List Cell) (c : Nat) (v : Cell) : List Cell :=
  (padTo row c).set (c - 1) v

/-- `ws.max_column`: the sheet-wide column count. -/
def maxCol (t : Table) : Nat :=
  (t : List (List Cell)).foldr (fun r a => max r.length a) 0

/-- `_row_as_list(ws, r, max_col)` (src/add_forecast_to_inventory.py:151):
the row's cells at columns `1..max_col`.  For the rows this code captures,
`max_col` is at least the row's stored length, so this is padding. -/
def _row_as_list (row : List Cell) (w : Nat) : List Cell :=
  (List.range w).map (fun i => cellAt row (i + 1))

/-- Association-list lookup with decidable string equality (models a Python
dict built with first-occurrence-wins insertion). -/
def lookupKey : List (String × Nat) → String → Option Nat
  | [], _ => Option.none
  | (k, c) :: rest, key => if k = key then some c else lookupKey rest key

/-- Column of a header key, with an (unreachable on checked paths) default. -/
def getCol (hm : List (String × Nat)) (key : String) : Nat :=
  (lookupKey hm key).getD 0

/-- Worker for `_build_header_map`: walk the header cells left-to-right with
1-based column numbers, recording the first column for each non-blank
normalised header. -/
def bhmGo : List Cell → Nat → List (String × Nat) → List (String × Nat)
  | [], _, acc => acc
  | v :: rest, col, acc =>
    let key := pyLowerNorm v
    bhmGo rest (col + 1)
      (if key ≠ "" ∧ (lookupKey acc key) = Option.none then acc ++ [(key, col)] else acc)

/-- `_build_header_map` (src/add_forecast_to_inventory.py:63).  The source
iterates columns `1..ws.max_column`; header cells beyond the stored header
row are empty and skipped, so walking the stored header row is equivalent. -/
def _build_header_map (row1 : List Cell) : List (String × Nat) :=
  bhmGo row1 1 []

/-- `REQUIRED_INVENTORY_HEADERS` (src/add_forecast_to_inventory.py:21). -/
def REQUIRED_INVENTORY_HEADERS : List String :=
  ["Name", "Subitems", "Registry ID", "Inventory ID", "Status", "Issuance Status",
   "Days Since (Status)", "Date - Total Amount", "Total Amount (ACCUs)",
   "Realised Amount (ACCUs to CCG)", "Date - Realised Amount", "Forecasted Submission Date",
   "Unit Type", "Application ID", "Reporting Period - Start", "Reporting Period - End",
   "RP", "Delay Flag", "Data Source", "Data Update Date", "Declared Projects Portfolio",
   "Project Number", "Entity", "Proponents", "Methodology", "Business Unit", "Project Stage",
   "Operational Model", "Fee Model", "Number", "Unit", "Item ID", "Key"]

/-- `PORTFOLIO_FIELDS` (src/add_forecast_to_inventory.py:31). -/
def PORTFOLIO_FIELDS : List String :=
  ["Name", "Subitems", "Registry ID", "Project ID", "Methodology", "Project Stage",
   "Proponents", "Business Unit", "Operational Model", "Fee Model", "Entity",
   "Number", "Unit"]

/-- Keys of `FORECAST_TO_INVENTORY_MAP` (src/add_forecast_to_inventory.py:47),
in dict order. -/
def FORECAST_HEADER_KEYS : List String :=
  ["RP", "Reporting Period - Start", "Reporting Period - End", "ACCUs Realised"]

/-- Write the required headers into row 1 starting at column `start`
(the empty-header-map branch of `_ensure_headers`). -/
def writeHeaders (row1 : List Cell) : List String → Nat → List Cell
  | [], _ => row1
  | h :: rest, start => writeHeaders (setCell row1 start (Cell.str h)) rest (start + 1)

/-- One pass of the append loop of `_ensure_headers`: state is the header row,
the incrementally extended header map, and the next free column. -/
def ensureFold : List String → List Cell × List (String × Nat) × Nat →
    List Cell × List (String × Nat) × Nat
  | [], st => st
  | h :: rest, (r, m, nc) =>
    if (lookupKey m (pyLowerStr h)).isSome then ensureFold rest (r, m, nc)
    else ensureFold rest (setCell r nc (Cell.str h), m ++ [(pyLowerStr h, nc)], nc + 1)

/-- `_ensure_headers` (src/add_forecast_to_inventory.py:73): if row 1 has no
usable headers, write the required headers into it; otherwise append each
missing required header after the sheet's last used column.  Returns the
header map and the updated table. -/
def _ensure_headers (t : Table) : List (String × Nat) × Table :=
  let row1 := (t : List (List Cell)).headD []
  let hm := _build_header_map row1
  if hm = [] then
    let row1' := writeHeaders row1 REQUIRED_INVENTORY_HEADERS 1
    (_build_header_map row1', (row1' :: (t : List (List Cell)).tail : List (List Cell)))
  else
    let st := ensureFold REQUIRED_INVENTORY_HEADERS (row1, hm, maxCol t + 1)
    (st.2.1, (st.1 :: (t : List (List Cell)).tail : List (List Cell)))

/-! ### `clean_mi_export` (src/helpers/clean_mi_export.py:51)

Loads the master-inventory export, finds the header row (the first row whose
column-A cell is a string stripping to `"Name"`), deletes every row above it,
and saves the workbook back **in place** (image anchors are presentation-only
and not modelled).  This runs unconditionally before any validation of a
reconciliation run. -/

/-- Index (0-based) of the first row whose first cell is a string stripping to
`"Name"`. -/
def findNameHeaderRow (t : Table) : Option Nat :=
  (t : List (List Cell)).findIdx?
    (fun row => match cellAt row 1 with
      | Cell.str s => strTrim s = "Name"
      | _ => false)

/-- `clean_mi_export`, at table level (the file is rewritten with this
content). -/
def clean_mi_export (t : Table) : Table :=
  match findNameHeaderRow t with
  | some i => ((t : List (List Cell)).drop i : List (List Cell))
  | Option.none => t

/-! ### Reconciliation engine (`add_forecast_to_inventory`)

The pipeline is modelled as a pure function from the three input tables
(forecast workbook's first sheet, declared-projects-portfolio sheet, master
inventory sheet) and the run date to either a `PyError` (every `raise` in the
source is a `ValueError` carried with its message) or a `RunOut` recording the
rebuilt ledger together with the run's intermediate artifacts (the values the
source writes into the delta workbook).  File paths and the multi-sheet
selection helpers (`_find_sheet_by_keywords`) are collapsed: each workbook is
represented directly by its selected sheet. -/

/-- Python exception as raised by the modelled code. -/
inductive PyError where
  | valueError (msg : String)
deriving DecidableEq, Repr, Inhabited

deriving instance DecidableEq for Except

/-- One forecast data row as collected by the scan loop
(src/add_forecast_to_inventory.py:210): raw `RP` and `ACCUs Realised` cells,
parsed period start (a date; the loop raises when it cannot parse), and the
period end as parsed (possibly `none`; checked later in the append loop). -/
structure FRow where
  row_index : Nat
  rp : Cell
  rpStart : Date
  rpEnd : Option Date
  accus : Cell
deriving DecidableEq, Repr, Inhabited

/-- The forecast/portfolio context computed before the ledger is touched. -/
structure Ctx where
  erf : String
  frows : List FRow
  cutoff : Date
  ph : List (String × Nat)
  pRow : List Cell
deriving DecidableEq, Repr, Inhabited

/-- The forecast-header presence check
(src/add_forecast_to_inventory.py:186): raise on the first missing required
forecast header. -/
def checkForecastHeaders (fh : List (String × Nat)) : List String → Except PyError Unit
  | [] => Except.ok ()
  | needed :: rest =>
    if (lookupKey fh (pyLowerStr needed)).isSome then checkForecastHeaders fh rest
    else Except.error (PyError.valueError
      ("Forecast sheet missing required header '" ++ needed ++ "' in row 1."))

/-- The running-minimum update of the scan loop
(src/add_forecast_to_inventory.py:207): `if cutoff_start_dt is None or
start_dt < cutoff_start_dt: cutoff_start_dt = start_dt`. -/
def updateCutoff (cutoff : Option Date) (sd : Date) : Option Date :=
  match cutoff with
  | Option.none => some sd
  | some c => if sd.blt c then some sd else some c

/-- The forecast scan loop (src/add_forecast_to_inventory.py:197): walk data
rows (sheet rows 2..) carrying the running minimum start date and the
collected rows; skip rows with a blank `RP`; raise when a non-blank row's
start does not parse. -/
def scanForecast (rpCol startCol endCol accusCol : Nat) :
    List (List Cell) → Nat → Option Date → List FRow →
    Except PyError (List FRow × Option Date)
  | [], _, cutoff, acc => Except.ok (acc, cutoff)
  | row :: rest, rIdx, cutoff, acc =>
    let rpVal := cellAt row rpCol
    if pyNorm rpVal = "" then scanForecast rpCol startCol endCol accusCol rest (rIdx + 1) cutoff acc
    else
      match _to_datetime (cellAt row startCol) with
      | Option.none => Except.error (PyError.valueError
          ("Row " ++ toString rIdx ++ ": Reporting Period - Start missing or not a date."))
      | some sd =>
        scanForecast rpCol startCol endCol accusCol rest (rIdx + 1) (updateCutoff cutoff sd)
          (acc ++ [{ row_index := rIdx, rp := rpVal, rpStart := sd,
                     rpEnd := _to_datetime (cellAt row endCol),
                     accus := cellAt row accusCol }])

/-- `_find_row_by_value` (src/add_forecast_to_inventory.py:98), specialised to
a non-blank target on a present column: first data row (sheet rows 2..) whose
normalised cell equals the target. -/
def findRowByValue (col : Nat) (target : String) : List (List Cell) → Option (List Cell)
  | [] => Option.none
  | row :: rest =>
    if pyNorm (cellAt row col) = target then some row
    else findRowByValue col target rest

/-- Phase 1 of `add_forecast_to_inventory`
(src/add_forecast_to_inventory.py:174–231): clean the portfolio export, read
the ERF from forecast cell B2, validate the forecast headers, scan the
forecast rows and cutoff, and locate the project's portfolio row.  Nothing in
this phase depends on the master inventory. -/
def phase1 (f p : Table) : Except PyError Ctx := do
  let pC := clean_mi_export p
  let erf := pyNorm (cellAt2 f 2 2)
  if erf = "" then
    throw (PyError.valueError "ERF value was blank. Expected it in cell B2 of the forecast workbook.")
  let fh := _build_header_map ((f : List (List Cell)).headD [])
  let _ ← checkForecastHeaders fh FORECAST_HEADER_KEYS
  let rpCol := getCol fh (pyLowerStr "RP")
  let startCol := getCol fh (pyLowerStr "Reporting Period - Start")
  let endCol := getCol fh (pyLowerStr "Reporting Period - End")
  let accusCol := getCol fh (pyLowerStr "ACCUs Realised")
  let (frows, cutoff?) ← scanForecast rpCol startCol endCol accusCol
      ((f : List (List Cell)).tail) 2 Option.none []
  match cutoff? with
  | Option.none => throw (PyError.valueError "No forecast data rows found (RP column was empty).")
  | some cutoff =>
    let ph := _build_header_map ((pC : List (List Cell)).headD [])
    if (lookupKey ph "registry id").isNone then
      throw (PyError.valueError "Declared Projects Portfolio sheet missing 'Registry ID' column.")
    match findRowByValue (getCol ph "registry id") erf ((pC : List (List Cell)).tail) with
    | Option.none => throw (PyError.valueError
        ("Could not find ERF '" ++ erf ++ "' in Declared Projects Portfolio 'Registry ID'."))
    | some pRow => pure { erf := erf, frows := frows, cutoff := cutoff, ph := ph, pRow := pRow }

/-- The deletion loop (src/add_forecast_to_inventory.py:261–278) on the data
rows: returns (rows remaining in the sheet, `deleted_rows`, `kept_rows`), the
latter two captured with `_row_as_list` at width `w` and in top-to-bottom
order.  The source iterates from the bottom row upwards, deleting in place
(safe because deletion only shifts already-visited rows) and appending to the
two lists, which it then reverses; this recursion — which processes the rows
below a given row first and prepends that row's contribution — produces
exactly those reversed lists and the same remaining rows. -/
def partitionRows (erf : String) (cutoff : Date) (rc ec w : Nat) :
    List (List Cell) → List (List Cell) × List (List Cell) × List (List Cell)
  | [] => ([], [], [])
  | row :: rest =>
    let pr := partitionRows erf cutoff rc ec w rest
    if pyNorm (cellAt row rc) ≠ erf then (row :: pr.1, pr.2.1, pr.2.2)
    else
      match _to_datetime (cellAt row ec) with
      | Option.none => (row :: pr.1, pr.2.1, _row_as_list row w :: pr.2.2)
      | some dt =>
        if cutoff.blt dt then (pr.1, _row_as_list row w :: pr.2.1, pr.2.2)
        else (row :: pr.1, pr.2.1, _row_as_list row w :: pr.2.2)

/-- `_write` (src/add_forecast_to_inventory.py:144): write `v` under header
`name` if the header map knows it, else silently skip. -/
def pyWrite (ih : List (String × Nat)) (row : List Cell) (name : String) (v : Cell) : List Cell :=
  match lookupKey ih (pyLowerStr name) with
  | some c => setCell row c v
  | Option.none => row

/-- Apply a sequence of `_write`s in order. -/
def applyWrites (ih : List (String × Nat)) (row : List Cell) :
    List (String × Cell) → List Cell
  | [] => row
  | (name, v) :: rest => applyWrites ih (pyWrite ih row name v) rest

/-- The portfolio→inventory copy list
(src/add_forecast_to_inventory.py:293–300): for each portfolio field, look up
its column in the portfolio sheet (raising if missing), read the project's
cell, and retarget `Project ID` to the inventory's `Project Number`. -/
def portfolioWrites (pRow : List Cell) (ph : List (String × Nat)) :
    List String → Except PyError (List (String × Cell))
  | [] => Except.ok []
  | field :: rest =>
    match lookupKey ph (pyLowerStr field) with
    | Option.none => Except.error (PyError.valueError
        ("Declared Projects Portfolio missing required column '" ++ field ++ "'."))
    | some c => do
      let tail ← portfolioWrites pRow ph rest
      Except.ok ((if pyLowerStr field = "project id" then "Project Number" else field,
                  cellAt pRow c) :: tail)

/-- One iteration of the append loop
(src/add_forecast_to_inventory.py:284–324): check the period end parsed, then
perform the source's `_write` sequence into a fresh sheet row — portfolio
metadata, forecast fields (the period start is written **plus one day**), the
derived dates (end + 2 days, end + 92 days), the fixed `Forecasted` status and
the run date. -/
def buildNewRow (pRow : List Cell) (ph ih : List (String × Nat)) (runDate : Date)
    (fr : FRow) : Except PyError (List Cell) :=
  match fr.rpEnd with
  | Option.none => Except.error (PyError.valueError
      ("Row " ++ toString fr.row_index ++ ": Reporting Period - End missing or not a date."))
  | some e => do
    let pw ← portfolioWrites pRow ph PORTFOLIO_FIELDS
    Except.ok (applyWrites ih []
      (pw ++
       [("RP", fr.rp),
        ("Reporting Period - Start", Cell.date (fr.rpStart.addDays 1)),
        ("Reporting Period - End", Cell.date e),
        ("Total Amount (ACCUs)", fr.accus),
        ("Forecasted Submission Date", Cell.date (e.addDays 2)),
        ("Date - Total Amount", Cell.date (e.addDays 92)),
        ("Status", Cell.str "Forecasted"),
        ("Data Update Date", Cell.date runDate)]))

/-- The whole append loop over the collected forecast rows. -/
def buildNewRows (pRow : List Cell) (ph ih : List (String × Nat)) (runDate : Date) :
    List FRow → Except PyError (List (List Cell))
  | [] => Except.ok []
  | fr :: rest => do
    let row ← buildNewRow pRow ph ih runDate fr
    let tail ← buildNewRows pRow ph ih runDate rest
    Except.ok (row :: tail)

/-- Read a freshly written sheet row back in `REQUIRED_INVENTORY_HEADERS`
order (src/add_forecast_to_inventory.py:327). -/
def captureRow (ih : List (String × Nat)) (row : List Cell) : List Cell :=
  REQUIRED_INVENTORY_HEADERS.map (fun h =>
    match lookupKey ih (pyLowerStr h) with
    | some c => cellAt row c
    | Option.none => Cell.none)

/-- Last index of a value in a list: models the `{h: i for i, h in
enumerate(l)}` dict comprehensions, where a later duplicate overwrites an
earlier one. -/
def lastIdxOfCell (l : List Cell) (v : Cell) : Option Nat :=
  match l with
  | [] => Option.none
  | c :: rest =>
    match lastIdxOfCell rest v with
    | some i => some (i + 1)
    | Option.none => if c = v then some 0 else Option.none

/-- Same, over a list of strings (`new_idx` on the required headers). -/
def lastIdxOfStr (l : List String) (v : String) : Option Nat :=
  match l with
  | [] => Option.none
  | s :: rest =>
    match lastIdxOfStr rest v with
    | some i => some (i + 1)
    | Option.none => if s = v then some 0 else Option.none

/-- Sum of `_to_float` over one 0-based column of a list of captured rows
(src/add_forecast_to_inventory.py:342,349). -/
def sumFloatsAt (rows : List (List Cell)) (i : Nat) : ℚ :=
  (rows.map (fun r => _to_float (r.getD i Cell.none))).sum

/-- The header under which issued amounts live. -/
def accuHeader : String := "Total Amount (ACCUs)"

/-- All artifacts of a successful reconciliation run: the context, the
ensured master table and header map, the deletion-loop columns and capture
width, the snapshot/kept/deleted/new row lists written into the delta
workbook, the totals and lifetime delta, and the rebuilt ledger saved to the
output path. -/
structure RunOut where
  ctx : Ctx
  ih : List (String × Nat)
  ensured : Table
  regCol : Nat
  rpEndCol : Nat
  width : Nat
  snapshotHeaders : List Cell
  snapshotRows : List (List Cell)
  keptRows : List (List Cell)
  deletedRows : List (List Cell)
  newRows : List (List Cell)
  captured : List (List Cell)
  rowsWritten : Nat
  newTotal : ℚ
  removedTotal : ℚ
  delta : ℚ
  inventory : Table
deriving DecidableEq, Repr, Inhabited

/-- Phase 2 of `add_forecast_to_inventory`
(src/add_forecast_to_inventory.py:234–356): ensure the inventory headers,
snapshot the project's rows, run the deletion loop, append the rebuilt
forecast rows, and compute the lifetime ACCU delta. -/
def phase2 (ctx : Ctx) (mC : Table) (runDate : Date) : Except PyError RunOut := do
  let ih := (_ensure_headers mC).1
  let T0 := (_ensure_headers mC).2
  match lookupKey ih (pyLowerStr "Registry ID") with
  | Option.none => throw (PyError.valueError "Inventory sheet missing 'Registry ID' column.")
  | some regCol =>
  match lookupKey ih (pyLowerStr "Reporting Period - End") with
  | Option.none => throw (PyError.valueError "Inventory sheet missing 'Reporting Period - End' column.")
  | some rpEndCol =>
    let w := maxCol T0
    let hdr := (T0 : List (List Cell)).headD []
    let snapshotHeaders := _row_as_list hdr w
    let snapshotRows :=
      (((T0 : List (List Cell)).tail).filter
        (fun row => pyNorm (cellAt row regCol) = ctx.erf)).map (fun row => _row_as_list row w)
    let pr := partitionRows ctx.erf ctx.cutoff regCol rpEndCol w ((T0 : List (List Cell)).tail)
    let newRows ← buildNewRows ctx.pRow ctx.ph ih runDate ctx.frows
    let captured := newRows.map (captureRow ih)
    let newTotal :=
      match lastIdxOfStr REQUIRED_INVENTORY_HEADERS accuHeader with
      | some i => sumFloatsAt captured i
      | Option.none => 0
    let removedTotal :=
      match lastIdxOfCell snapshotHeaders (Cell.str accuHeader) with
      | some i => sumFloatsAt pr.2.1 i
      | Option.none => 0
    pure { ctx := ctx, ih := ih, ensured := T0, regCol := regCol, rpEndCol := rpEndCol,
           width := w, snapshotHeaders := snapshotHeaders, snapshotRows := snapshotRows,
           keptRows := pr.2.2, deletedRows := pr.2.1, newRows := newRows, captured := captured,
           rowsWritten := newRows.length, newTotal := newTotal, removedTotal := removedTotal,
           delta := newTotal - removedTotal,
           inventory := ((hdr :: (pr.1 ++ newRows)) : List (List Cell)) }

/-- `add_forecast_to_inventory` (src/add_forecast_to_inventory.py:172).  The
in-place pre-cleaning of the master export happens first, unconditionally;
the forecast/portfolio phase never touches the ledger; phase 2 rebuilds it. -/
def add_forecast_to_inventory (f p m : Table) (runDate : Date) : Except PyError RunOut := do
  let mC := clean_mi_export m
  let ctx ← phase1 f p
  phase2 ctx mC runDate

/-- Content of the master-inventory file after a run.  The source writes that
file at exactly two points: `clean_mi_export` saves the cleaned workbook back
in place before any validation (src/add_forecast_to_inventory.py:173), and the
final `m_wb.save(config.save_master_inventory_output)`
(src/add_forecast_to_inventory.py:356) — reached only when no step raised —
touches it only when the configured output path is the master path
(`savesToMasterPath`). -/
def masterFileAfterRun (f p m : Table) (runDate : Date) (savesToMasterPath : Bool) : Table :=
  match add_forecast_to_inventory f p m runDate with
  | Except.error _ => clean_mi_export m
  | Except.ok out => if savesToMasterPath then out.inventory else clean_mi_export m

/-! ### Forecast engine

`months_completed`, `cp_at_months` and `generate_rp_schedule` are defined
identically in `src/PF_2020/PF_Schedule4_Forecaster.py` and
`src/COALARA/Coalara_Forecaster/PF_Schedule4_Forecaster.py`; they are embedded
once. -/

/-- `months_completed(d1, d2)`
(src/PF_2020/PF_Schedule4_Forecaster.py:27): whole completed calendar months
from `d1` to `d2`; antisymmetric via a single swap when `d2 < d1`. -/
def mcOrdered (d1 d2 : Date) : Int :=
  let total : Int := ((d2.year : Int) - d1.year) * 12 + ((d2.month : Int) - d1.month)
  if d2.day < d1.day then total - 1 else total

/-- `months_completed` with the source's swap-to-order guard. -/
def months_completed (d1 d2 : Date) : Int :=
  if d2.blt d1 then -(mcOrdered d2 d1) else mcOrdered d1 d2

/-- `cp_at_months(cbase, clt, n_months, dpp)`
(src/PF_2020/PF_Schedule4_Forecaster.py:37): clamp the month count to
`[0, 180]` and interpolate. -/
def cp_at_months (cbase clt : ℚ) (n_months : Int) (dpp : ℚ) : ℚ :=
  let n : Int := min (max n_months 0) 180
  cbase + ((n : ℚ) / 180) * (clt - cbase) * dpp

/-- The body of `generate_rp_schedule`'s `while` loop, with explicit fuel.
Each pass advances `rp_end` by one calendar year, so its year strictly grows;
the loop runs while `rp_end ≤ last_end`, hence
`last_end.year + 1 - first_end.year` passes suffice. -/
def genSchedGo : Nat → Date → Date → Date → List (Date × Date)
  | 0, _, _, _ => []
  | fuel + 1, rp_start, rp_end, last_end =>
    if rp_end.ble last_end then
      (rp_start, rp_end) :: genSchedGo fuel (rp_start.addYears 1) (rp_end.addYears 1) last_end
    else []

/-- `generate_rp_schedule(first_start, first_end, last_end)`
(src/PF_2020/PF_Schedule4_Forecaster.py:53): yearly reporting periods,
both bounds advanced by `relativedelta(years=1)` per step, while the period
end does not pass `last_end`. -/
def generate_rp_schedule (first_start first_end last_end : Date) : List (Date × Date) :=
  genSchedGo (last_end.year + 1 - first_end.year) first_start first_end last_end

namespace PF2020

/-- Constants of `src/PF_2020/PF_Schedule4_Forecaster.py:11–23`. -/
def CBASE : ℚ := 59678 / 100

def CLT : ℚ := 18441956 / 100

def PERMANENCE_YEARS : Nat := 25

def DPP : ℚ := if PERMANENCE_YEARS = 25 then 3 / 4 else 1

def CEA_START : Date := ⟨2021, 6, 25⟩

def FIRST_RP_START : Date := ⟨2025, 10, 31⟩

def FIRST_RP_END : Date := ⟨2026, 6, 30⟩

def MODELLING_END_RP_END : Date := ⟨2046, 6, 30⟩

def FIRST_YEAR_DEDUCTION : ℚ := 12821

/-- `RPResult` (src/PF_2020/PF_Schedule4_Forecaster.py:42). -/
structure RPResult where
  rp_index : Nat
  rp_start : Date
  rp_end : Date
  n_months : Int
  cp_c : ℚ
  annual_credit_c : ℚ
  annual_credit_c_adj : ℚ
deriving DecidableEq, Repr, Inhabited

/-- The loop body of `forecast()` (src/PF_2020/PF_Schedule4_Forecaster.py:69–97)
over an arbitrary period schedule, carrying `(i, prev_cp_c, cum_c_adj)`.
Besides the emitted `RPResult`s it returns the trace of the loop variable
`cum_c_adj` after each iteration, so that the accumulation can be reasoned
about (the source keeps `cum_c_adj` as a local only).  The first-year
deduction applies when `i == 1` and the deduction is non-zero (Python float
truthiness); the 0.75 permanence reduction applies after it. -/
def forecastGo : Nat → Option ℚ → ℚ → List (Date × Date) → List RPResult × List ℚ
  | _, _, _, [] => ([], [])
  | i, prev_cp_c, cum_c_adj, (rp_start, rp_end) :: rest =>
    let n := months_completed CEA_START rp_end
    let cp_c_raw := cp_at_months CBASE CLT n DPP
    let annual_c_raw := match prev_cp_c with
      | Option.none => cp_c_raw
      | some p => cp_c_raw - p
    let annual_after_first_deduction :=
      if i = 1 ∧ FIRST_YEAR_DEDUCTION ≠ 0 then annual_c_raw - FIRST_YEAR_DEDUCTION
      else annual_c_raw
    let annual_c_adj :=
      if PERMANENCE_YEARS = 25 then annual_after_first_deduction * (3 / 4)
      else annual_after_first_deduction
    let cum' := cum_c_adj + annual_c_adj
    let (rows, cums) := forecastGo (i + 1) (some cp_c_raw) cum' rest
    ({ rp_index := i, rp_start := rp_start, rp_end := rp_end, n_months := n,
       cp_c := cp_c_raw, annual_credit_c := annual_c_raw,
       annual_credit_c_adj := annual_c_adj } :: rows,
     cum' :: cums)

/-- `forecast()` on the module's configured schedule. -/
def forecast : List RPResult × List ℚ :=
  forecastGo 1 Option.none 0
    (generate_rp_schedule FIRST_RP_START FIRST_RP_END MODELLING_END_RP_END)

end PF2020

namespace Coalara

/-- Constants of `src/COALARA/Coalara_Forecaster/PF_Schedule4_Forecaster.py:11–19`. -/
def CBASE : ℚ := 7288 / 10

def CLT : ℚ := 149697

def PERMANENCE_YEARS : Nat := 25

def DPP : ℚ := if PERMANENCE_YEARS = 25 then 3 / 4 else 1

def CEA_START : Date := ⟨2021, 6, 25⟩

end Coalara

/-! ### Ratcheted-cap issuance
(`src/PF_2020/Coalara_Forecaster/Coalara_Calculatorv2.py:88–99`) -/

/-- Python `round(x, 2)` on exact rationals: scale, round to an integer,
unscale.  (CPython rounds exact halves to even; Mathlib's `round` rounds
halves up.  The two differ only on exact `.xx5` ties, which never affects the
sign or monotonicity facts proved here.) -/
def pyRound2 (q : ℚ) : ℚ := ((round (q * 100) : ℤ) : ℚ) / 100

/-- One emitted summary row of the Coalara calculator loop. -/
structure CoRow where
  stock : ℚ
  net_abatement : ℚ
  calc_accu : ℚ
  issued_accu : ℚ
  accumulated : ℚ
deriving DecidableEq, Repr, Inhabited

/-- The per-period loop of Coalara_Calculatorv2 over the sequence of stock
readings (one `Option ℚ` per generated reporting period; `none` models an
empty `Summary!D30`, which the source skips with `continue`, leaving
`accumulated_accu` unchanged).  `year_idx` counts all periods, including the
skipped ones.  Returns the emitted rows and the final `accumulated_accu`. -/
def issued_accu_run : Nat → ℚ → List (Option ℚ) → List CoRow × ℚ
  | _, accumulated, [] => ([], accumulated)
  | year_idx, accumulated, Option.none :: rest => issued_accu_run (year_idx + 1) accumulated rest
  | year_idx, accumulated, some stock :: rest =>
    let net_abatement := if year_idx = 0 then 224762 / 100 else stock - accumulated
    let calc_accu := pyRound2 (net_abatement * (3 / 4))
    let issued := pyRound2 (max 0 (calc_accu - accumulated))
    let accumulated' := accumulated + issued
    let (rows, fin) := issued_accu_run (year_idx + 1) accumulated' rest
    ({ stock := stock, net_abatement := net_abatement, calc_accu := calc_accu,
       issued_accu := issued, accumulated := accumulated' } :: rows, fin)

/-! ### Predicates used in statements -/

/-- Well-formedness of a header map as the code builds them: pairwise distinct
keys and columns, all columns ≥ 1. -/
def HMGood (hm : List (String × Nat)) : Prop :=
  List.Pairwise (fun a b => a.1 ≠ b.1 ∧ a.2 ≠ b.2) hm ∧ ∀ e ∈ hm, 1 ≤ e.2

instance (hm : List (String × Nat)) : Decidable (HMGood hm) := by
  unfold HMGood; infer_instance

/-- A ledger data row the deletion loop keeps in place: either the registry id
does not match, or the period-end cell is unparseable, or the parsed end is
not after the cutoff. -/
def keepPred (erf : String) (cutoff : Date) (rc ec : Nat) (row : List Cell) : Prop :=
  pyNorm (cellAt row rc) = erf →
    ∀ dt, _to_datetime (cellAt row ec) = some dt → cutoff.blt dt = false

/-- A ledger data row the deletion loop removes: matching registry id and a
parsed period end strictly after the cutoff. -/
def delPred (erf : String) (cutoff : Date) (rc ec : Nat) (row : List Cell) : Prop :=
  pyNorm (cellAt row rc) = erf ∧
    ∃ dt, _to_datetime (cellAt row ec) = some dt ∧ cutoff.blt dt = true

/-! ### Concrete instances

The tables below realise the spec's worked reconciliation example (§8) and the
degenerate instances used to settle the universal claims. -/

/-- Forecast sheet for the worked example: headers in row 1 (laid out as the
engine's aggregated output, with `Registry ID` in column B so that cell B2
holds the ERF), one data row. -/
def exForecast : Table :=
  ([[Cell.str "Name", Cell.str "Registry ID", Cell.str "RP",
     Cell.str "Reporting Period - Start", Cell.str "Reporting Period - End",
     Cell.str "ACCUs Realised"],
    [Cell.str "Project X", Cell.str "PX", Cell.num 3,
     Cell.date ⟨2025, 10, 31⟩, Cell.date ⟨2026, 6, 30⟩, Cell.num 5000]] : List (List Cell))

/-- Declared-projects portfolio sheet with the full field set and one project. -/
def exPortfolio : Table :=
  ([PORTFOLIO_FIELDS.map Cell.str,
    [Cell.str "Project X", Cell.str "sub", Cell.str "PX", Cell.str "P-123",
     Cell.str "Meth", Cell.str "Registered", Cell.str "Prop", Cell.str "BU",
     Cell.str "OM", Cell.str "FM", Cell.str "Ent", Cell.num 1,
     Cell.str "ACCUs"]] : List (List Cell))

/-- Master-inventory ledger for the worked example: the project's 2020 and
2026 rows. -/
def exLedger : Table :=
  ([[Cell.str "Name", Cell.str "Registry ID", Cell.str "Reporting Period - End",
     Cell.str "Total Amount (ACCUs)"],
    [Cell.str "Project X", Cell.str "PX", Cell.date ⟨2020, 6, 30⟩, Cell.num 1000],
    [Cell.str "Project X", Cell.str "PX", Cell.date ⟨2026, 6, 30⟩, Cell.num 4500]] : List (List Cell))

/-- A fixed run date for the concrete runs. -/
def exRunDate : Date := ⟨2026, 1, 15⟩

/-- The worked example's reconciliation output. -/
def exOut : RunOut :=
  match add_forecast_to_inventory exForecast exPortfolio exLedger exRunDate with
  | Except.ok o => o
  | Except.error _ => default

/-- A degenerate forecast whose only row has `period_end = period_start`, so
the period end is **not** after the cutoff. -/
def degForecast : Table :=
  ([[Cell.str "Name", Cell.str "Registry ID", Cell.str "RP",
     Cell.str "Reporting Period - Start", Cell.str "Reporting Period - End",
     Cell.str "ACCUs Realised"],
    [Cell.str "Project X", Cell.str "PX", Cell.num 1,
     Cell.date ⟨2020, 1, 1⟩, Cell.date ⟨2020, 1, 1⟩, Cell.num 5000]] : List (List Cell))

/-- First run of the degenerate instance. -/
def degOut1 : RunOut :=
  match add_forecast_to_inventory degForecast exPortfolio exLedger exRunDate with
  | Except.ok o => o
  | Except.error _ => default

/-- Second run of the degenerate instance, on the first run's saved ledger
with the identical forecast. -/
def degOut2 : RunOut :=
  match add_forecast_to_inventory degForecast exPortfolio degOut1.inventory exRunDate with
  | Except.ok o => o
  | Except.error _ => default

/-- A ledger holding a matching row whose period-end cell is an unparseable
string. -/
def c5Ledger : Table :=
  ([[Cell.str "Name", Cell.str "Registry ID", Cell.str "Reporting Period - End",
     Cell.str "Total Amount (ACCUs)"],
    [Cell.str "Project X", Cell.str "PX", Cell.str "TBC", Cell.num 700],
    [Cell.str "Project X", Cell.str "PX", Cell.date ⟨2026, 6, 30⟩, Cell.num 4500]] : List (List Cell))

/-- Reconciliation over `c5Ledger`. -/
def c5Out : RunOut :=
  match add_forecast_to_inventory exForecast exPortfolio c5Ledger exRunDate with
  | Except.ok o => o
  | Except.error _ => default

/-- A Monday export whose first row is blank, with the `Name` header row
below it: `clean_mi_export` deletes the blank row and rewrites the file. -/
def junkLedger : Table :=
  ([[Cell.none],
    [Cell.str "Name", Cell.str "Registry ID", Cell.str "Reporting Period - End",
     Cell.str "Total Amount (ACCUs)"],
    [Cell.str "Project X", Cell.str "PX", Cell.date ⟨2026, 6, 30⟩, Cell.num 4500]] : List (List Cell))

/-- A forecast workbook whose cell B2 is blank: the run aborts at the first
validation. -/
def blankForecast : Table := ([[]] : List (List Cell))

/-- A forecast sheet with valid headers whose data rows all have a blank `RP`:
the forecast set is empty. -/
def emptyRPForecast : Table :=
  ([[Cell.str "Name", Cell.str "Registry ID", Cell.str "RP",
     Cell.str "Reporting Period - Start", Cell.str "Reporting Period - End",
     Cell.str "ACCUs Realised"],
    [Cell.str "Project X", Cell.str "PX", Cell.none,
     Cell.date ⟨2025, 10, 31⟩, Cell.date ⟨2026, 6, 30⟩, Cell.num 5000]] : List (List Cell))

/-- A fully populated inventory header row (for witness instances). -/
def fullHdr : List Cell := REQUIRED_INVENTORY_HEADERS.map Cell.str

/-- Header map over `fullHdr`. -/
def fullIh : List (String × Nat) := _build_header_map fullHdr

/-- Header map over the portfolio header row. -/
def exPh : List (String × Nat) := _build_header_map (PORTFOLIO_FIELDS.map Cell.str)

/-- The example portfolio's data row. -/
def exPRow : List Cell :=
  [Cell.str "Project X", Cell.str "sub", Cell.str "PX", Cell.str "P-123",
   Cell.str "Meth", Cell.str "Registered", Cell.str "Prop", Cell.str "BU",
   Cell.str "OM", Cell.str "FM", Cell.str "Ent", Cell.num 1, Cell.str "ACCUs"]

/-- The worked example's collected forecast row. -/
def exFr : FRow :=
  { row_index := 2, rp := Cell.num 3, rpStart := ⟨2025, 10, 31⟩,
    rpEnd := some ⟨2026, 6, 30⟩, accus := Cell.num 5000 }

/-- The full `_write` sequence of one append-loop iteration, with the
portfolio lookups spelled out (provably the list `buildNewRow` applies). -/
def newRowWrites (pRow : List Cell) (ph : List (String × Nat)) (fr : FRow) (e : Date)
    (runDate : Date) : List (String × Cell) :=
  [("Name", cellAt pRow (getCol ph "name")),
   ("Subitems", cellAt pRow (getCol ph "subitems")),
   ("Registry ID", cellAt pRow (getCol ph "registry id")),
   ("Project Number", cellAt pRow (getCol ph "project id")),
   ("Methodology", cellAt pRow (getCol ph "methodology")),
   ("Project Stage", cellAt pRow (getCol ph "project stage")),
   ("Proponents", cellAt pRow (getCol ph "proponents")),
   ("Business Unit", cellAt pRow (getCol ph "business unit")),
   ("Operational Model", cellAt pRow (getCol ph "operational model")),
   ("Fee Model", cellAt pRow (getCol ph "fee model")),
   ("Entity", cellAt pRow (getCol ph "entity")),
   ("Number", cellAt pRow (getCol ph "number")),
   ("Unit", cellAt pRow (getCol ph "unit")),
   ("RP", fr.rp),
   ("Reporting Period - Start", Cell.date (fr.rpStart.addDays 1)),
   ("Reporting Period - End", Cell.date e),
   ("Total Amount (ACCUs)", fr.accus),
   ("Forecasted Submission Date", Cell.date (e.addDays 2)),
   ("Date - Total Amount", Cell.date (e.addDays 92)),
   ("Status", Cell.str "Forecasted"),
   ("Data Update Date", Cell.date runDate)]

/-- The worked example's appended ledger row built against a fully populated
header map. -/
def c9Row : List Cell :=
  (buildNewRow exPRow exPh fullIh exRunDate exFr).toOption.getD []

/-! ## Lemmas -/

/-! ### Cell and row basics -/

theorem getD_replicate_self {α : Type} (a : α) (k i : Nat) :
    (List.replicate k a).getD i a = a := by
  induction k generalizing i with
  | zero => simp [List.getD]
  | succ k ih =>
    cases i with
    | zero => simp [List.replicate]
    | succ i => simpa [List.replicate] using ih i

theorem cellAt_padTo (r : List Cell) (n c : Nat) : cellAt (padTo r n) c = cellAt r c := by
  unfold cellAt padTo
  rcases Nat.lt_or_ge (c - 1) r.length with h | h
  · rw [List.getD_append _ _ _ _ h]
  · rw [List.getD_append_right _ _ _ _ h, List.getD_eq_default _ _ h]
    exact getD_replicate_self _ _ _

theorem cellAt_row_as_list (r : List Cell) (w c : Nat) (h1 : 1 ≤ c) (h2 : c ≤ w) :
    cellAt (_row_as_list r w) c = cellAt r c := by
  unfold _row_as_list cellAt
  have hlt : c - 1 < w := by omega
  rw [List.getD_eq_getElem _ _ (by simpa using hlt)]
  simp only [List.getElem_map, List.getElem_range]
  have he : c - 1 + 1 = c := by omega
  rw [he]

theorem getD_row_as_list (r : List Cell) (w i : Nat) (h : i < w) :
    (_row_as_list r w).getD i Cell.none = r.getD i Cell.none := by
  have := cellAt_row_as_list r w (i + 1) (by omega) (by omega)
  unfold cellAt at this
  simpa using this

theorem length_padTo (r : List Cell) (n : Nat) : (padTo r n).length = max r.length n := by
  simp [padTo]
  omega

theorem cellAt_setCell_self (r : List Cell) (c : Nat) (hc : 1 ≤ c) (v : Cell) :
    cellAt (setCell r c v) c = v := by
  unfold cellAt setCell
  have hlt : c - 1 < (padTo r c).length := by
    rw [length_padTo]; omega
  rw [List.getD_eq_getD_get?, List.get?_eq_getElem?, List.getElem?_set_self hlt]
  rfl

theorem cellAt_setCell_other (r : List Cell) (c c' : Nat) (v : Cell)
    (hc : 1 ≤ c) (hc' : 1 ≤ c') (hne : c ≠ c') :
    cellAt (setCell r c v) c' = cellAt r c' := by
  unfold setCell
  have : cellAt ((padTo r c).set (c - 1) v) c' = cellAt (padTo r c) c' := by
    unfold cellAt
    rw [List.getD_eq_getD_get?, List.getD_eq_getD_get?, List.get?_eq_getElem?,
      List.get?_eq_getElem?, List.getElem?_set_ne (by omega)]
  rw [this, cellAt_padTo]

/-! ### Date order facts -/

theorem Date.blt_iff (a b : Date) : a.blt b = true ↔
    (a.year < b.year ∨ (a.year = b.year ∧ (a.month < b.month ∨
      (a.month = b.month ∧ a.day < b.day)))) := by
  simp [Date.blt]

theorem Date.blt_trans {a b c : Date} (h1 : a.blt b = true) (h2 : b.blt c = true) :
    a.blt c = true := by
  rw [Date.blt_iff] at h1 h2 ⊢
  omega

theorem Date.blt_asymm {a b : Date} (h : a.blt b = true) : b.blt a = false := by
  rw [Date.blt_iff] at h
  rw [Bool.eq_false_iff]
  intro hc
  rw [Date.blt_iff] at hc
  omega

theorem Date.eq_of_not_blt {a b : Date} (h1 : a.blt b = false) (h2 : b.blt a = false) :
    a = b := by
  rcases a with ⟨ay, am, ad⟩
  rcases b with ⟨by_, bm, bd⟩
  rw [Bool.eq_false_iff] at h1 h2
  rw [Ne, Date.blt_iff] at h1 h2
  dsimp only at h1 h2
  simp only [Date.mk.injEq]
  omega

/-! ### Lookup and header-map lemmas -/

theorem lookupKey_append (a b : List (String × Nat)) (k : String) :
    lookupKey (a ++ b) k = ((lookupKey a k).orElse (fun _ => lookupKey b k)) := by
  induction a with
  | nil => simp [lookupKey]
  | cons e rest ih =>
    rcases e with ⟨k', c⟩
    by_cases h : k' = k
    · simp [lookupKey, h]
    · simp [lookupKey, h, ih]

theorem lookupKey_mem {hm : List (String × Nat)} {k : String} {c : Nat}
    (h : lookupKey hm k = some c) : (k, c) ∈ hm := by
  induction hm with
  | nil => simp [lookupKey] at h
  | cons e rest ih =>
    rcases e with ⟨k', c'⟩
    by_cases hk : k' = k
    · subst hk
      simp [lookupKey] at h
      simp [h]
    · simp [lookupKey, hk] at h
      simp [ih h]

theorem lookupKey_eq_none {hm : List (String × Nat)} {k : String}
    (h : lookupKey hm k = Option.none) : ∀ e ∈ hm, e.1 ≠ k := by
  induction hm with
  | nil => simp
  | cons e rest ih =>
    rcases e with ⟨k', c'⟩
    by_cases hk : k' = k
    · simp [lookupKey, hk] at h
    · simp [lookupKey, hk] at h
      intro e he
      rcases List.mem_cons.mp he with he | he
      · simp [he, hk]
      · exact ih h e he

theorem lookupKey_isSome_mem {hm : List (String × Nat)} {k : String}
    (h : (lookupKey hm k).isSome) : ∃ c, (k, c) ∈ hm := by
  rcases Option.isSome_iff_exists.mp h with ⟨c, hc⟩
  exact ⟨c, lookupKey_mem hc⟩

theorem lookupKey_inj {hm : List (String × Nat)} (hg : HMGood hm) {k k' : String} {c : Nat}
    (h1 : lookupKey hm k = some c) (h2 : lookupKey hm k' = some c) : k = k' := by
  rcases hg with ⟨hp, _⟩
  by_cases heq : ((k, c) : String × Nat) = (k', c)
  · exact congrArg Prod.fst heq
  · have hsym : Symmetric (fun (a b : String × Nat) => a.1 ≠ b.1 ∧ a.2 ≠ b.2) := by
      intro a b hab
      exact ⟨fun h => hab.1 h.symm, fun h => hab.2 h.symm⟩
    have := hp.forall hsym (lookupKey_mem h1) (lookupKey_mem h2) heq
    exact absurd rfl this.2

theorem lookupKey_other_ne {hm : List (String × Nat)} (hg : HMGood hm) {k k' : String} {c : Nat}
    (h1 : lookupKey hm k = some c) (hne : k' ≠ k) : lookupKey hm k' ≠ some c := by
  intro h2
  exact hne (lookupKey_inj hg h2 h1)

theorem pyLowerNorm_str (s : String) : pyLowerNorm (Cell.str s) = pyLowerStr s := rfl

theorem pyLowerNorm_none : pyLowerNorm Cell.none = "" := by decide

theorem bhmGo_append_cells (l1 l2 : List Cell) (col : Nat) (acc : List (String × Nat)) :
    bhmGo (l1 ++ l2) col acc = bhmGo l2 (col + l1.length) (bhmGo l1 col acc) := by
  induction l1 generalizing col acc with
  | nil => simp [bhmGo]
  | cons c rest ih =>
    simp only [List.cons_append, bhmGo, List.append_eq]
    rw [ih]
    have h3 : col + 1 + rest.length = col + (c :: rest).length := by
      simp only [List.length_cons]
      omega
    rw [h3]

theorem bhmGo_replicate_none (j col : Nat) (acc : List (String × Nat)) :
    bhmGo (List.replicate j Cell.none) col acc = acc := by
  induction j generalizing col with
  | zero => simp [bhmGo]
  | succ j ih =>
    simp only [List.replicate, bhmGo, pyLowerNorm_none]
    simpa using ih (col + 1)

theorem bhmGo_extend (l : List Cell) (col : Nat) (acc : List (String × Nat)) :
    ∃ ext, bhmGo l col acc = acc ++ ext := by
  induction l generalizing col acc with
  | nil => exact ⟨[], by simp [bhmGo]⟩
  | cons c rest ih =>
    simp only [bhmGo]
    split
    · rcases ih (col + 1) (acc ++ [(pyLowerNorm c, col)]) with ⟨ext, hext⟩
      exact ⟨(pyLowerNorm c, col) :: ext, by simpa using hext⟩
    · exact ih (col + 1) acc

theorem bhmGo_preserve {acc : List (String × Nat)} {k : String} {c : Nat}
    (l : List Cell) (col : Nat) (h : lookupKey acc k = some c) :
    lookupKey (bhmGo l col acc) k = some c := by
  rcases bhmGo_extend l col acc with ⟨ext, hext⟩
  rw [hext, lookupKey_append, h]
  rfl

theorem bhmGo_good (l : List Cell) (col : Nat) (acc : List (String × Nat))
    (hb : ∀ e ∈ acc, 1 ≤ e.2 ∧ e.2 < col) (hcol : 1 ≤ col)
    (hp : List.Pairwise (fun a b => a.1 ≠ b.1 ∧ a.2 ≠ b.2) acc) :
    (∀ e ∈ bhmGo l col acc, 1 ≤ e.2 ∧ e.2 < col + l.length) ∧
      List.Pairwise (fun a b => a.1 ≠ b.1 ∧ a.2 ≠ b.2) (bhmGo l col acc) := by
  induction l generalizing col acc with
  | nil =>
    refine ⟨fun e he => ?_, by simpa [bhmGo] using hp⟩
    have := hb e (by simpa [bhmGo] using he)
    simp only [List.length_nil]
    omega
  | cons c rest ih =>
    simp only [bhmGo]
    split
    · rename_i hcond
      have hb' : ∀ e ∈ acc ++ [(pyLowerNorm c, col)], 1 ≤ e.2 ∧ e.2 < col + 1 := by
        intro e he
        rcases List.mem_append.mp he with he | he
        · have := hb e he; omega
        · simp at he; simp [he]; omega
      have hp' : List.Pairwise (fun a b => a.1 ≠ b.1 ∧ a.2 ≠ b.2)
          (acc ++ [(pyLowerNorm c, col)]) := by
        rw [List.pairwise_append]
        refine ⟨hp, by simp, ?_⟩
        intro a ha b hb'
        simp at hb'
        subst hb'
        refine ⟨lookupKey_eq_none hcond.2 a ha, ?_⟩
        have := hb a ha
        simp only []
        omega
      have := ih (col + 1) (acc ++ [(pyLowerNorm c, col)]) hb' (by omega) hp'
      refine ⟨fun e he => ?_, this.2⟩
      have h1 := this.1 e he
      simp only [List.length_cons]
      omega
    · have := ih (col + 1) acc (by intro e he; have := hb e he; omega) (by omega) hp
      refine ⟨fun e he => ?_, this.2⟩
      have h1 := this.1 e he
      simp only [List.length_cons]
      omega

theorem bhm_good (r : List Cell) :
    HMGood (_build_header_map r) ∧ ∀ e ∈ _build_header_map r, e.2 ≤ r.length := by
  have := bhmGo_good r 1 [] (by simp) (by omega) (by simp)
  refine ⟨⟨this.2, fun e he => (this.1 e he).1⟩, fun e he => ?_⟩
  have := this.1 e he
  omega

theorem bhmGo_complete (l : List Cell) (col : Nat) (acc : List (String × Nat))
    {i : Nat} (h : i < l.length) {k : String}
    (hk : pyLowerNorm (l.get ⟨i, h⟩) = k) (hne : k ≠ "") :
    (lookupKey (bhmGo l col acc) k).isSome := by
  induction l generalizing col acc i with
  | nil => simp at h
  | cons c rest ih =>
    cases i with
    | zero =>
      simp only [List.get] at hk
      subst hk
      simp only [bhmGo]
      split
      · rename_i hcond
        have : lookupKey (acc ++ [(pyLowerNorm c, col)]) (pyLowerNorm c) = some col := by
          rw [lookupKey_append, hcond.2]
          simp [lookupKey]
        rw [bhmGo_preserve rest (col + 1) this]
        rfl
      · rename_i hcond
        rw [not_and_or] at hcond
        rcases hcond with hcond | hcond
        · simp at hcond; exact absurd hcond hne
        · rcases Option.ne_none_iff_exists'.mp hcond with ⟨c', hc'⟩
          rw [bhmGo_preserve rest (col + 1) hc']
          rfl
    | succ i =>
      simp only [List.get] at hk
      simp only [bhmGo]
      split
      · exact ih (col + 1) _ (by simpa using h) hk
      · exact ih (col + 1) _ (by simpa using h) hk

theorem bhm_complete (r : List Cell) (c : Nat) (k : String)
    (hk : pyLowerNorm (cellAt r c) = k) (hne : k ≠ "") (hc : 1 ≤ c) :
    (lookupKey (_build_header_map r) k).isSome := by
  have hlt : c - 1 < r.length := by
    by_contra hge
    push_neg at hge
    unfold cellAt at hk
    rw [List.getD_eq_default _ _ hge] at hk
    exact hne (hk ▸ pyLowerNorm_none)
  have hget : r.get ⟨c - 1, hlt⟩ = cellAt r c := by
    unfold cellAt
    rw [List.getD_eq_getElem _ _ hlt, List.get_eq_getElem]
  exact bhmGo_complete r 1 [] hlt (by rw [hget]; exact hk) hne

/-! ### Schedule and issuance lemmas -/

theorem genSchedGo_getD (fuel : Nat) (s e le : Date) (i : Nat)
    (h : i < (genSchedGo fuel s e le).length) :
    (genSchedGo fuel s e le).getD i default =
      ((fun d => Date.addYears d 1)^[i] s, (fun d => Date.addYears d 1)^[i] e) := by
  induction fuel generalizing s e i with
  | zero => simp [genSchedGo] at h
  | succ fuel ih =>
    by_cases hle : e.ble le = true
    · cases i with
      | zero => simp [genSchedGo, hle]
      | succ i =>
        have hlen : i < (genSchedGo fuel (s.addYears 1) (e.addYears 1) le).length := by
          simp only [genSchedGo, hle, if_true, List.length_cons] at h
          omega
        have := ih (s.addYears 1) (e.addYears 1) i hlen
        simp only [genSchedGo, hle, if_true, List.getD_cons_succ]
        rw [this, Function.iterate_succ_apply, Function.iterate_succ_apply]
    · simp only [genSchedGo] at h

      rw [if_neg hle] at h
      simp at h

theorem blt_addYears_one (d : Date) : d.blt (d.addYears 1) = true := by
  simp [Date.blt, Date.addYears]

theorem generate_rp_schedule_getD (fs fe le : Date) (i : Nat)
    (h : i < (generate_rp_schedule fs fe le).length) :
    (generate_rp_schedule fs fe le).getD i default =
      ((fun d => Date.addYears d 1)^[i] fs, (fun d => Date.addYears d 1)^[i] fe) :=
  genSchedGo_getD _ fs fe le i h

/-- `pyRound2` preserves non-negativity. -/
theorem pyRound2_nonneg {q : ℚ} (h : 0 ≤ q) : 0 ≤ pyRound2 q := by
  unfold pyRound2
  have h1 : (0 : ℚ) ≤ q * 100 := by positivity
  have h2 : (0 : ℤ) ≤ round (q * 100) := by
    rw [round_eq]
    rw [Int.le_floor]
    push_cast
    linarith
  positivity

theorem issued_accu_run_invariant (rs : List (Option ℚ)) (i : Nat) (acc : ℚ) :
    (∀ r ∈ (issued_accu_run i acc rs).1, 0 ≤ r.issued_accu) ∧
    List.Chain' (· ≤ ·) (acc :: (issued_accu_run i acc rs).1.map (·.accumulated)) ∧
    acc ≤ (issued_accu_run i acc rs).2 := by
  induction rs generalizing i acc with
  | nil => simp [issued_accu_run]
  | cons r rest ih =>
    cases r with
    | none =>
      simpa [issued_accu_run] using ih (i + 1) acc
    | some stock =>
      have hissued : 0 ≤ pyRound2 (max 0
          (pyRound2 ((if i = 0 then 224762 / 100 else stock - acc) * (3 / 4)) - acc)) :=
        pyRound2_nonneg (le_max_left 0 _)
      have hstep : acc ≤ acc + pyRound2 (max 0
          (pyRound2 ((if i = 0 then 224762 / 100 else stock - acc) * (3 / 4)) - acc)) := by
        linarith
      have := ih (i + 1) (acc + pyRound2 (max 0
          (pyRound2 ((if i = 0 then 224762 / 100 else stock - acc) * (3 / 4)) - acc)))
      refine ⟨?_, ?_, ?_⟩
      · intro r hr
        simp only [issued_accu_run] at hr
        rcases List.mem_cons.mp hr with hr | hr
        · rw [hr]
          exact hissued
        · exact this.1 r hr
      · simp only [issued_accu_run, List.map_cons]
        rw [List.chain'_cons]
        exact ⟨hstep, this.2.1⟩
      · calc acc ≤ _ := hstep
          _ ≤ _ := this.2.2

theorem forecastGo_monotone (sched : List (Date × Date)) (i : Nat) (prev : Option ℚ) (cum : ℚ)
    (h : ∀ r ∈ (PF2020.forecastGo i prev cum sched).1, 0 ≤ r.annual_credit_c_adj) :
    List.Chain' (· ≤ ·) (cum :: (PF2020.forecastGo i prev cum sched).2) := by
  induction sched generalizing i prev cum with
  | nil => simp [PF2020.forecastGo]
  | cons pr rest ih =>
    rcases pr with ⟨rp_start, rp_end⟩
    have hhead : 0 ≤ ((PF2020.forecastGo i prev cum ((rp_start, rp_end) :: rest)).1.headD
        default).annual_credit_c_adj := by
      apply h
      simp [PF2020.forecastGo]
    simp only [PF2020.forecastGo] at hhead ⊢
    rw [List.chain'_cons]
    constructor
    · simp only [List.headD_cons] at hhead
      linarith
    · apply ih
      intro r hr
      apply h
      simp only [PF2020.forecastGo]
      exact List.mem_cons_of_mem _ hr

/-! ### Deletion-loop lemmas -/

theorem partitionRows_cons (erf : String) (cutoff : Date) (rc ec w : Nat)
    (row : List Cell) (rest : List (List Cell)) :
    partitionRows erf cutoff rc ec w (row :: rest) =
      (if pyNorm (cellAt row rc) ≠ erf then
        (row :: (partitionRows erf cutoff rc ec w rest).1,
         (partitionRows erf cutoff rc ec w rest).2.1,
         (partitionRows erf cutoff rc ec w rest).2.2)
       else
         match _to_datetime (cellAt row ec) with
         | Option.none =>
           (row :: (partitionRows erf cutoff rc ec w rest).1,
            (partitionRows erf cutoff rc ec w rest).2.1,
            _row_as_list row w :: (partitionRows erf cutoff rc ec w rest).2.2)
         | some dt =>
           if cutoff.blt dt then
             ((partitionRows erf cutoff rc ec w rest).1,
              _row_as_list row w :: (partitionRows erf cutoff rc ec w rest).2.1,
              (partitionRows erf cutoff rc ec w rest).2.2)
           else
             (row :: (partitionRows erf cutoff rc ec w rest).1,
              (partitionRows erf cutoff rc ec w rest).2.1,
              _row_as_list row w :: (partitionRows erf cutoff rc ec w rest).2.2)) := rfl

theorem partitionRows_append (erf : String) (cutoff : Date) (rc ec w : Nat)
    (l1 l2 : List (List Cell)) :
    partitionRows erf cutoff rc ec w (l1 ++ l2) =
      ((partitionRows erf cutoff rc ec w l1).1 ++ (partitionRows erf cutoff rc ec w l2).1,
       (partitionRows erf cutoff rc ec w l1).2.1 ++ (partitionRows erf cutoff rc ec w l2).2.1,
       (partitionRows erf cutoff rc ec w l1).2.2 ++ (partitionRows erf cutoff rc ec w l2).2.2) := by
  induction l1 with
  | nil => simp [partitionRows]
  | cons row rest ih =>
    rw [List.cons_append, partitionRows_cons, partitionRows_cons, ih]
    by_cases h1 : pyNorm (cellAt row rc) ≠ erf
    · rw [if_pos h1, if_pos h1]
      simp
    · rw [if_neg h1, if_neg h1]
      cases _to_datetime (cellAt row ec) with
      | none => simp
      | some dt =>
        dsimp only
        by_cases h2 : cutoff.blt dt = true
        · rw [if_pos h2, if_pos h2]
          simp
        · rw [if_neg h2, if_neg h2]
          simp

theorem partitionRows_all_keep (erf : String) (cutoff : Date) (rc ec w : Nat)
    (l : List (List Cell)) (h : ∀ row ∈ l, keepPred erf cutoff rc ec row) :
    (partitionRows erf cutoff rc ec w l).1 = l ∧
      (partitionRows erf cutoff rc ec w l).2.1 = [] := by
  induction l with
  | nil => simp [partitionRows]
  | cons row rest ih =>
    have hrest := ih (fun r hr => h r (List.mem_cons_of_mem _ hr))
    have hrow := h row (List.mem_cons_self _ _)
    rw [partitionRows_cons]
    by_cases h1 : pyNorm (cellAt row rc) ≠ erf
    · rw [if_pos h1]
      simp [hrest.1, hrest.2]
    · rw [if_neg h1]
      push_neg at h1
      cases hdt : _to_datetime (cellAt row ec) with
      | none => simp [hrest.1, hrest.2]
      | some dt =>
        have hkeep := hrow h1 dt hdt
        dsimp only
        rw [if_neg (by rw [hkeep]; simp)]
        simp [hrest.1, hrest.2]

theorem partitionRows_all_delete (erf : String) (cutoff : Date) (rc ec w : Nat)
    (l : List (List Cell)) (h : ∀ row ∈ l, delPred erf cutoff rc ec row) :
    (partitionRows erf cutoff rc ec w l).1 = [] ∧
      (partitionRows erf cutoff rc ec w l).2.1 = l.map (fun row => _row_as_list row w) := by
  induction l with
  | nil => simp [partitionRows]
  | cons row rest ih =>
    have hrest := ih (fun r hr => h r (List.mem_cons_of_mem _ hr))
    rcases h row (List.mem_cons_self _ _) with ⟨h1, dt, hdt, hblt⟩
    rw [partitionRows_cons, if_neg (by rw [h1]; simp), hdt]
    dsimp only
    rw [if_pos hblt]
    simp [hrest.1, hrest.2]

theorem partitionRows_rem_keep (erf : String) (cutoff : Date) (rc ec w : Nat)
    (l : List (List Cell)) :
    ∀ row ∈ (partitionRows erf cutoff rc ec w l).1, keepPred erf cutoff rc ec row := by
  induction l with
  | nil => simp [partitionRows]
  | cons row rest ih =>
    intro r hr
    rw [partitionRows_cons] at hr
    by_cases h1 : pyNorm (cellAt row rc) ≠ erf
    · rw [if_pos h1] at hr
      rcases List.mem_cons.mp hr with hr | hr
      · subst hr
        intro hmatch
        exact absurd hmatch h1
      · exact ih r hr
    · rw [if_neg h1] at hr
      cases hdt : _to_datetime (cellAt row ec) with
      | none =>
        rw [hdt] at hr
        dsimp only at hr
        rcases List.mem_cons.mp hr with hr | hr
        · subst hr
          intro _ dt hdt2
          rw [hdt] at hdt2
          exact absurd hdt2 (by simp)
        · exact ih r hr
      | some dt =>
        rw [hdt] at hr
        dsimp only at hr
        by_cases h2 : cutoff.blt dt = true
        · rw [if_pos h2] at hr
          exact ih r hr
        · rw [if_neg h2] at hr
          rcases List.mem_cons.mp hr with hr | hr
          · subst hr
            intro _ dt2 hdt2
            rw [hdt] at hdt2
            cases hdt2
            simpa using h2
          · exact ih r hr

theorem partitionRows_keep_mem (erf : String) (cutoff : Date) (rc ec w : Nat)
    (l : List (List Cell)) (row : List Cell) (hmem : row ∈ l)
    (hmatch : pyNorm (cellAt row rc) = erf)
    (hunp : _to_datetime (cellAt row ec) = Option.none) :
    row ∈ (partitionRows erf cutoff rc ec w l).1 ∧
      _row_as_list row w ∈ (partitionRows erf cutoff rc ec w l).2.2 := by
  induction l with
  | nil => simp at hmem
  | cons r0 rest ih =>
    rcases List.mem_cons.mp hmem with hmem | hmem
    · subst hmem
      rw [partitionRows_cons, if_neg (by rw [hmatch]; simp), hunp]
      dsimp only
      exact ⟨List.mem_cons_self _ _, List.mem_cons_self _ _⟩
    · have hres := ih hmem
      rw [partitionRows_cons]
      by_cases h1 : pyNorm (cellAt r0 rc) ≠ erf
      · rw [if_pos h1]
        exact ⟨List.mem_cons_of_mem _ hres.1, hres.2⟩
      · rw [if_neg h1]
        cases _to_datetime (cellAt r0 ec) with
        | none =>
          dsimp only
          exact ⟨List.mem_cons_of_mem _ hres.1, List.mem_cons_of_mem _ hres.2⟩
        | some dt =>
          dsimp only
          by_cases h2 : cutoff.blt dt = true
          · rw [if_pos h2]
            exact hres
          · rw [if_neg h2]
            exact ⟨List.mem_cons_of_mem _ hres.1, List.mem_cons_of_mem _ hres.2⟩

/-! ### Scan-loop lemmas -/

theorem scanForecast_skip_all (rpCol startCol endCol accusCol : Nat)
    (rows : List (List Cell)) :
    ∀ (rIdx : Nat) (cutoff : Option Date) (acc : List FRow),
    (∀ row ∈ rows, pyNorm (cellAt row rpCol) = "") →
    scanForecast rpCol startCol endCol accusCol rows rIdx cutoff acc =
      Except.ok (acc, cutoff) := by
  induction rows with
  | nil =>
    intro rIdx cutoff acc _
    simp [scanForecast]
  | cons row rest ih =>
    intro rIdx cutoff acc h
    have hrow := h row (List.mem_cons_self _ _)
    simp only [scanForecast, hrow, if_true]
    exact ih (rIdx + 1) cutoff acc (fun r hr => h r (List.mem_cons_of_mem _ hr))

theorem scanForecast_min (rpCol startCol endCol accusCol : Nat)
    (rows : List (List Cell)) :
    ∀ (rIdx : Nat) (cutoff : Option Date) (acc : List FRow) (frs : List FRow) (c : Date),
    scanForecast rpCol startCol endCol accusCol rows rIdx cutoff acc =
      Except.ok (frs, some c) →
    (∀ c0, cutoff = some c0 → (c0 ∈ acc.map (fun fr => fr.rpStart) ∧
      ∀ fr ∈ acc, fr.rpStart.blt c0 = false)) →
    (cutoff = Option.none → acc = []) →
    c ∈ frs.map (fun fr => fr.rpStart) ∧ ∀ fr ∈ frs, fr.rpStart.blt c = false := by
  induction rows with
  | nil =>
    intro rIdx cutoff acc frs c h hinv hnone
    simp only [scanForecast, Except.ok.injEq, Prod.mk.injEq] at h
    rcases h with ⟨h1, h2⟩
    subst h1
    exact hinv c h2
  | cons row rest ih =>
    intro rIdx cutoff acc frs c h hinv hnone
    simp only [scanForecast] at h
    by_cases hrp : pyNorm (cellAt row rpCol) = ""
    · rw [if_pos hrp] at h
      exact ih (rIdx + 1) cutoff acc frs c h hinv hnone
    · rw [if_neg hrp] at h
      cases hsd : _to_datetime (cellAt row startCol) with
      | none =>
        rw [hsd] at h
        exact absurd h (by simp)
      | some sd =>
        rw [hsd] at h
        dsimp only at h
        cases cutoff with
        | none =>
          have hacc := hnone rfl
          subst hacc
          rw [show updateCutoff Option.none sd = some sd from rfl] at h
          refine ih (rIdx + 1) (some sd) _ frs c h (fun c0 hc0 => ?_) (by simp)
          cases hc0
          refine ⟨by simp, fun fr2 hfr2 => ?_⟩
          simp only [List.nil_append, List.mem_singleton] at hfr2
          subst hfr2
          dsimp only
          rw [Bool.eq_false_iff]
          intro hlt
          rw [Date.blt_iff] at hlt
          omega
        | some c0 =>
          rcases hinv c0 rfl with ⟨hc0mem, hc0min⟩
          rw [show updateCutoff (some c0) sd = (if sd.blt c0 then some sd else some c0) from rfl]
            at h
          by_cases hsdlt : sd.blt c0 = true
          · rw [if_pos hsdlt] at h
            refine ih (rIdx + 1) (some sd) _ frs c h (fun c1 hc1 => ?_) (by simp)
            cases hc1
            refine ⟨by simp, fun fr2 hfr2 => ?_⟩
            rcases List.mem_append.mp hfr2 with hfr2 | hfr2
            · have hold := hc0min fr2 hfr2
              rw [Bool.eq_false_iff] at hold ⊢
              intro hlt
              exact hold (Date.blt_trans hlt hsdlt)
            · simp only [List.mem_singleton] at hfr2
              subst hfr2
              dsimp only
              rw [Bool.eq_false_iff]
              intro hlt
              rw [Date.blt_iff] at hlt
              omega
          · rw [if_neg hsdlt] at h
            refine ih (rIdx + 1) (some c0) _ frs c h (fun c1 hc1 => ?_) (by simp)
            cases hc1
            refine ⟨?_, fun fr2 hfr2 => ?_⟩
            · simp only [List.map_append, List.mem_append]
              exact Or.inl hc0mem
            · rcases List.mem_append.mp hfr2 with hfr2 | hfr2
              · exact hc0min fr2 hfr2
              · simp only [List.mem_singleton] at hfr2
                subst hfr2
                simpa using hsdlt


/-! ### Row lookup and write lemmas -/

theorem findRowByValue_spec (col : Nat) (target : String) (l : List (List Cell))
    (row : List Cell) (h : findRowByValue col target l = some row) :
    pyNorm (cellAt row col) = target ∧ row ∈ l := by
  induction l with
  | nil => simp [findRowByValue] at h
  | cons r0 rest ih =>
    simp only [findRowByValue] at h
    by_cases h0 : pyNorm (cellAt r0 col) = target
    · rw [if_pos h0] at h
      cases h
      exact ⟨h0, List.mem_cons_self _ _⟩
    · rw [if_neg h0] at h
      rcases ih h with ⟨h1, h2⟩
      exact ⟨h1, List.mem_cons_of_mem _ h2⟩

theorem applyWrites_append (ih : List (String × Nat)) (row : List Cell)
    (l1 l2 : List (String × Cell)) :
    applyWrites ih row (l1 ++ l2) = applyWrites ih (applyWrites ih row l1) l2 := by
  induction l1 generalizing row with
  | nil => simp [applyWrites]
  | cons e rest ihl =>
    rcases e with ⟨name, v⟩
    simp only [List.cons_append, applyWrites]
    exact ihl _

theorem cellAt_pyWrite_other (ih : List (String × Nat)) (row : List Cell)
    (name : String) (v : Cell) (c : Nat) (hc : 1 ≤ c)
    (hw : ∀ e ∈ ih, 1 ≤ e.2)
    (hne : lookupKey ih (pyLowerStr name) ≠ some c) :
    cellAt (pyWrite ih row name v) c = cellAt row c := by
  unfold pyWrite
  cases hlk : lookupKey ih (pyLowerStr name) with
  | none => rfl
  | some c' =>
    have hc' : 1 ≤ c' := hw _ (lookupKey_mem hlk)
    have : c' ≠ c := by
      intro heq
      rw [heq] at hlk
      exact hne hlk
    exact cellAt_setCell_other row c' c v hc' hc this

theorem cellAt_applyWrites_preserve (ih : List (String × Nat)) (row : List Cell)
    (writes : List (String × Cell)) (c : Nat) (hc : 1 ≤ c)
    (hw : ∀ e ∈ ih, 1 ≤ e.2)
    (h : ∀ e ∈ writes, lookupKey ih (pyLowerStr e.1) ≠ some c) :
    cellAt (applyWrites ih row writes) c = cellAt row c := by
  induction writes generalizing row with
  | nil => rfl
  | cons e rest ihl =>
    rcases e with ⟨name, v⟩
    simp only [applyWrites]
    rw [ihl _ (fun e he => h e (List.mem_cons_of_mem _ he))]
    exact cellAt_pyWrite_other ih row name v c hc hw (h _ (List.mem_cons_self _ _))

theorem cellAt_applyWrites_last (ih : List (String × Nat)) (row : List Cell)
    (l1 l2 : List (String × Cell)) (name : String) (v : Cell) (c : Nat)
    (hw : ∀ e ∈ ih, 1 ≤ e.2)
    (hlk : lookupKey ih (pyLowerStr name) = some c)
    (hafter : ∀ e ∈ l2, lookupKey ih (pyLowerStr e.1) ≠ some c) :
    cellAt (applyWrites ih row (l1 ++ (name, v) :: l2)) c = v := by
  have hc : 1 ≤ c := hw _ (lookupKey_mem hlk)
  rw [applyWrites_append]
  have : applyWrites ih (applyWrites ih row l1) ((name, v) :: l2) =
      applyWrites ih (pyWrite ih (applyWrites ih row l1) name v) l2 := rfl
  rw [this, cellAt_applyWrites_preserve ih _ l2 c hc hw hafter]
  unfold pyWrite
  rw [hlk]
  exact cellAt_setCell_self _ c hc v

/-- Keys not lower-equal to a looked-up key never hit its column. -/
theorem hit_other_col {ih : List (String × Nat)} (hg : HMGood ih) {key : String} {c : Nat}
    (hlk : lookupKey ih key = some c) {name : String} (hne : pyLowerStr name ≠ key) :
    lookupKey ih (pyLowerStr name) ≠ some c :=
  lookupKey_other_ne hg hlk hne

/-! ### Portfolio writes and new-row lemmas -/

theorem portfolioWrites_ok (pRow : List Cell) (ph : List (String × Nat)) :
    ∀ (fields : List String) (pw : List (String × Cell)),
    portfolioWrites pRow ph fields = Except.ok pw →
    pw = fields.map (fun field =>
      (if pyLowerStr field = "project id" then "Project Number" else field,
       cellAt pRow (getCol ph (pyLowerStr field)))) := by
  intro fields
  induction fields with
  | nil =>
    intro pw h
    simp only [portfolioWrites, Except.ok.injEq] at h
    simp [h.symm]
  | cons field rest ih =>
    intro pw h
    simp only [portfolioWrites] at h
    cases hlk : lookupKey ph (pyLowerStr field) with
    | none => rw [hlk] at h; exact absurd h (by simp)
    | some c =>
      rw [hlk] at h
      cases htail : portfolioWrites pRow ph rest with
      | error e =>
        rw [htail] at h
        exact absurd h (by simp [Bind.bind, Except.bind])
      | ok tail =>
        rw [htail] at h
        simp only [Bind.bind, Except.bind, Except.ok.injEq] at h
        rw [← h, ih tail htail]
        simp [getCol, hlk]

theorem buildNewRows_forall2 (pRow : List Cell) (ph ihm : List (String × Nat))
    (runDate : Date) :
    ∀ (frs : List FRow) (rows : List (List Cell)),
    buildNewRows pRow ph ihm runDate frs = Except.ok rows →
    List.Forall₂ (fun fr row => buildNewRow pRow ph ihm runDate fr = Except.ok row) frs rows := by
  intro frs
  induction frs with
  | nil =>
    intro rows h
    simp only [buildNewRows, Except.ok.injEq] at h
    rw [← h]
    exact List.Forall₂.nil
  | cons fr rest ih =>
    intro rows h
    simp only [buildNewRows] at h
    cases hrow : buildNewRow pRow ph ihm runDate fr with
    | error e =>
      rw [hrow] at h
      exact absurd h (by simp [Bind.bind, Except.bind])
    | ok row =>
      rw [hrow] at h
      cases htail : buildNewRows pRow ph ihm runDate rest with
      | error e =>
        rw [htail] at h
        exact absurd h (by simp [Bind.bind, Except.bind])
      | ok tail =>
        rw [htail] at h
        simp only [Bind.bind, Except.bind, Except.ok.injEq] at h
        rw [← h]
        exact List.Forall₂.cons hrow (ih tail htail)

/-! ### Header-ensuring lemmas -/

theorem set_replicate_last {α : Type} (j : Nat) (a v : α) :
    (List.replicate (j + 1) a).set j v = List.replicate j a ++ [v] := by
  induction j with
  | zero => simp [List.replicate]
  | succ j ih =>
    rw [List.replicate_succ, List.set_cons_succ, ih, List.replicate_succ, List.cons_append]

theorem set_append_right {α : Type} (l1 l2 : List α) (i : Nat) (v : α)
    (h : l1.length ≤ i) :
    (l1 ++ l2).set i v = l1 ++ l2.set (i - l1.length) v := by
  induction l1 generalizing i with
  | nil => simp
  | cons x xs ih =>
    cases i with
    | zero => simp at h
    | succ i =>
      simp only [List.cons_append, List.set_cons_succ, List.length_cons]
      rw [ih i (by simpa using h)]
      have harith : i + 1 - (xs.length + 1) = i - xs.length := by omega
      rw [harith]

theorem setCell_extend (r : List Cell) (nc : Nat) (v : Cell) (h : r.length < nc) :
    setCell r nc v = r ++ List.replicate (nc - 1 - r.length) Cell.none ++ [v] := by
  unfold setCell padTo
  rw [set_append_right r _ (nc - 1) v (by omega)]
  have h1 : nc - r.length = (nc - 1 - r.length) + 1 := by omega
  rw [h1, set_replicate_last, List.append_assoc]

theorem length_setCell (r : List Cell) (c : Nat) (v : Cell) :
    (setCell r c v).length = max r.length c := by
  unfold setCell
  rw [List.length_set, length_padTo]

theorem bhmGo_single (c : Cell) (col : Nat) (acc : List (String × Nat)) :
    bhmGo [c] col acc =
      (if pyLowerNorm c ≠ "" ∧ lookupKey acc (pyLowerNorm c) = Option.none
       then acc ++ [(pyLowerNorm c, col)] else acc) := rfl

theorem bhm_snoc (r : List Cell) (j : Nat) (cell : Cell) :
    _build_header_map (r ++ List.replicate j Cell.none ++ [cell]) =
      (if pyLowerNorm cell ≠ "" ∧
          lookupKey (_build_header_map r) (pyLowerNorm cell) = Option.none
       then _build_header_map r ++ [(pyLowerNorm cell, r.length + j + 1)]
       else _build_header_map r) := by
  unfold _build_header_map
  rw [bhmGo_append_cells, bhmGo_append_cells, bhmGo_replicate_none, bhmGo_single]
  simp only [List.length_append, List.length_replicate]
  have h1 : 1 + (r.length + j) = r.length + j + 1 := by omega
  rw [h1]

theorem ensureFold_cons (h : String) (rest : List String) (r : List Cell)
    (m : List (String × Nat)) (nc : Nat) :
    ensureFold (h :: rest) (r, m, nc) =
      (if (lookupKey m (pyLowerStr h)).isSome then ensureFold rest (r, m, nc)
       else ensureFold rest (setCell r nc (Cell.str h), m ++ [(pyLowerStr h, nc)], nc + 1)) :=
  rfl

theorem ensureFold_spec :
    ∀ (hs : List String) (r : List Cell) (m : List (String × Nat)) (nc : Nat),
    (∀ h ∈ hs, pyLowerStr h ≠ "") →
    (∀ k, lookupKey (_build_header_map r) k = lookupKey m k) →
    List.Pairwise (fun a b => a.1 ≠ b.1 ∧ a.2 ≠ b.2) m →
    (∀ e ∈ m, 1 ≤ e.2 ∧ e.2 ≤ r.length) →
    r.length < nc →
    (∀ k, lookupKey (_build_header_map (ensureFold hs (r, m, nc)).1) k =
        lookupKey (ensureFold hs (r, m, nc)).2.1 k) ∧
    (∀ h ∈ hs, (lookupKey (ensureFold hs (r, m, nc)).2.1 (pyLowerStr h)).isSome) ∧
    (∀ k c, lookupKey m k = some c → lookupKey (ensureFold hs (r, m, nc)).2.1 k = some c) ∧
    List.Pairwise (fun a b => a.1 ≠ b.1 ∧ a.2 ≠ b.2) (ensureFold hs (r, m, nc)).2.1 ∧
    (∀ e ∈ (ensureFold hs (r, m, nc)).2.1,
      1 ≤ e.2 ∧ e.2 ≤ (ensureFold hs (r, m, nc)).1.length) := by
  intro hs
  induction hs with
  | nil =>
    intro r m nc _ hlk hp hb _
    refine ⟨fun k => hlk k, by simp, fun k c hc => hc, hp, fun e he => ?_⟩
    exact hb e he
  | cons h rest ih =>
    intro r m nc hne hlk hp hb hlen
    rw [ensureFold_cons]
    by_cases hsome : (lookupKey m (pyLowerStr h)).isSome
    · rw [if_pos hsome]
      have res := ih r m nc (fun x hx => hne x (List.mem_cons_of_mem _ hx)) hlk hp hb hlen
      refine ⟨res.1, ?_, res.2.2.1, res.2.2.2.1, res.2.2.2.2⟩
      intro h2 hh2
      rcases List.mem_cons.mp hh2 with hh2 | hh2
      · subst hh2
        rcases Option.isSome_iff_exists.mp hsome with ⟨c, hc⟩
        rw [res.2.2.1 _ _ hc]
        rfl
      · exact res.2.1 h2 hh2
    · rw [if_neg hsome]
      have hnone : lookupKey m (pyLowerStr h) = Option.none := by
        cases hx : lookupKey m (pyLowerStr h)
        · rfl
        · rw [hx] at hsome; simp at hsome
      have hkey : pyLowerStr h ≠ "" := hne h (List.mem_cons_self _ _)
      have hext := setCell_extend r nc (Cell.str h) hlen
      have hlen2 : (setCell r nc (Cell.str h)).length = nc := by
        rw [length_setCell]
        omega
      have hbhm : _build_header_map (setCell r nc (Cell.str h)) =
          _build_header_map r ++ [(pyLowerStr h, nc)] := by
        rw [hext, bhm_snoc]
        rw [if_pos ⟨by rw [pyLowerNorm_str]; exact hkey, by rw [pyLowerNorm_str, hlk]; exact hnone⟩]
        rw [pyLowerNorm_str]
        have : r.length + (nc - 1 - r.length) + 1 = nc := by omega
        rw [this]
      have hlk2 : ∀ k, lookupKey (_build_header_map (setCell r nc (Cell.str h))) k =
          lookupKey (m ++ [(pyLowerStr h, nc)]) k := by
        intro k
        rw [hbhm, lookupKey_append, lookupKey_append, hlk k]
      have hp2 : List.Pairwise (fun a b => a.1 ≠ b.1 ∧ a.2 ≠ b.2)
          (m ++ [(pyLowerStr h, nc)]) := by
        rw [List.pairwise_append]
        refine ⟨hp, by simp, fun a ha b hb2 => ?_⟩
        simp only [List.mem_singleton] at hb2
        subst hb2
        refine ⟨lookupKey_eq_none hnone a ha, ?_⟩
        have := hb a ha
        simp only []
        omega
      have hb2 : ∀ e ∈ m ++ [(pyLowerStr h, nc)],
          1 ≤ e.2 ∧ e.2 ≤ (setCell r nc (Cell.str h)).length := by
        intro e he
        rw [hlen2]
        rcases List.mem_append.mp he with he | he
        · have := hb e he
          omega
        · simp only [List.mem_singleton] at he
          subst he
          simp only []
          omega
      have res := ih (setCell r nc (Cell.str h)) (m ++ [(pyLowerStr h, nc)]) (nc + 1)
        (fun x hx => hne x (List.mem_cons_of_mem _ hx)) hlk2 hp2 hb2 (by omega)
      have hpres : ∀ k c, lookupKey m k = some c →
          lookupKey (ensureFold rest (setCell r nc (Cell.str h),
            m ++ [(pyLowerStr h, nc)], nc + 1)).2.1 k = some c := by
        intro k c hc
        apply res.2.2.1
        rw [lookupKey_append, hc]
        rfl
      refine ⟨res.1, ?_, hpres, res.2.2.2.1, res.2.2.2.2⟩
      intro h2 hh2
      rcases List.mem_cons.mp hh2 with hh2 | hh2
      · subst hh2
        have : lookupKey (m ++ [(pyLowerStr h2, nc)]) (pyLowerStr h2) = some nc := by
          rw [lookupKey_append, hnone]
          simp [lookupKey]
        rw [res.2.2.1 _ _ this]
        rfl
      · exact res.2.1 h2 hh2

theorem ensureFold_noop :
    ∀ (hs : List String) (r : List Cell) (m : List (String × Nat)) (nc : Nat),
    (∀ h ∈ hs, (lookupKey m (pyLowerStr h)).isSome) →
    ensureFold hs (r, m, nc) = (r, m, nc) := by
  intro hs
  induction hs with
  | nil => intro r m nc _; rfl
  | cons h rest ih =>
    intro r m nc hall
    rw [ensureFold_cons, if_pos (hall h (List.mem_cons_self _ _))]
    exact ih r m nc (fun x hx => hall x (List.mem_cons_of_mem _ hx))

theorem maxCol_headD (t : Table) : ((t : List (List Cell)).headD []).length ≤ maxCol t := by
  cases t with
  | nil => simp [maxCol]
  | cons r rest =>
    simp only [List.headD_cons, maxCol, List.foldr_cons]
    omega

theorem REQUIRED_keys_nonblank : ∀ h ∈ REQUIRED_INVENTORY_HEADERS, pyLowerStr h ≠ "" := by
  decide

theorem writeHeaders_preserve (hs : List String) (r : List Cell) (start c : Nat)
    (hc : 1 ≤ c) (hlt : c < start) :
    cellAt (writeHeaders r hs start) c = cellAt r c := by
  induction hs generalizing r start with
  | nil => rfl
  | cons h rest ih =>
    unfold writeHeaders
    rw [ih _ (start + 1) (by omega)]
    exact cellAt_setCell_other r start c (Cell.str h) (by omega) hc (by omega)

theorem writeHeaders_cellAt (hs : List String) (r : List Cell) (start : Nat)
    (hstart : 1 ≤ start) (i : Nat) (hi : i < hs.length) :
    cellAt (writeHeaders r hs start) (start + i) = Cell.str (hs.getD i "") := by
  induction hs generalizing r start i with
  | nil => simp at hi
  | cons h rest ih =>
    cases i with
    | zero =>
      unfold writeHeaders
      simp only [Nat.add_zero]
      rw [writeHeaders_preserve rest _ (start + 1) start hstart (by omega)]
      simpa using cellAt_setCell_self r start hstart (Cell.str h)
    | succ i =>
      unfold writeHeaders
      have : start + (i + 1) = (start + 1) + i := by omega
      rw [this]
      rw [ih _ (start + 1) (by omega) i (by simpa using hi)]
      rfl

theorem ensure_spec (t : Table) :
    (∀ k, lookupKey (_build_header_map (((_ensure_headers t).2 : List (List Cell)).headD [])) k =
        lookupKey (_ensure_headers t).1 k) ∧
    (∀ h ∈ REQUIRED_INVENTORY_HEADERS,
      (lookupKey (_ensure_headers t).1 (pyLowerStr h)).isSome) ∧
    ((_ensure_headers t).2 : List (List Cell)).tail = (t : List (List Cell)).tail ∧
    HMGood (_ensure_headers t).1 ∧
    (∀ e ∈ (_ensure_headers t).1,
      e.2 ≤ ((((_ensure_headers t).2 : List (List Cell)).headD []).length)) ∧
    (_ensure_headers t).2 =
      ((((_ensure_headers t).2 : List (List Cell)).headD []) :: (t : List (List Cell)).tail :
        List (List Cell)) := by
  unfold _ensure_headers
  by_cases hempty : _build_header_map ((t : List (List Cell)).headD []) = []
  · rw [if_pos hempty]
    dsimp only
    simp only [List.headD_cons, List.tail_cons]
    have hgood := bhm_good (writeHeaders ((t : List (List Cell)).headD [])
      REQUIRED_INVENTORY_HEADERS 1)
    refine ⟨fun k => by trivial, ?_, by trivial, hgood.1, hgood.2, by trivial⟩
    intro h hh
    rcases List.getElem_of_mem hh with ⟨i, hi, hget⟩
    have hcell := writeHeaders_cellAt REQUIRED_INVENTORY_HEADERS
      ((t : List (List Cell)).headD []) 1 (by omega) i hi
    rw [List.getD_eq_getElem _ _ hi, hget] at hcell
    apply bhm_complete _ (1 + i) (pyLowerStr h)
    · rw [hcell]
      exact pyLowerNorm_str h
    · exact REQUIRED_keys_nonblank h hh
    · omega
  · rw [if_neg hempty]
    dsimp only
    simp only [List.headD_cons, List.tail_cons]
    have hgb := bhm_good ((t : List (List Cell)).headD [])
    have hres := ensureFold_spec REQUIRED_INVENTORY_HEADERS
      ((t : List (List Cell)).headD [])
      (_build_header_map ((t : List (List Cell)).headD []))
      (maxCol t + 1) REQUIRED_keys_nonblank (fun k => rfl) hgb.1.1
      (fun e he => ⟨hgb.1.2 e he, hgb.2 e he⟩)
      (by have := maxCol_headD t; omega)
    refine ⟨hres.1, hres.2.1, by trivial, ⟨hres.2.2.2.1, fun e he => (hres.2.2.2.2 e he).1⟩,
      fun e he => (hres.2.2.2.2 e he).2, by trivial⟩

theorem ensure_noop (t : Table)
    (hne : _build_header_map ((t : List (List Cell)).headD []) ≠ [])
    (hall : ∀ h ∈ REQUIRED_INVENTORY_HEADERS,
      (lookupKey (_build_header_map ((t : List (List Cell)).headD [])) (pyLowerStr h)).isSome)
    (ht : t ≠ ([] : List (List Cell))) :
    _ensure_headers t = (_build_header_map ((t : List (List Cell)).headD []), t) := by
  unfold _ensure_headers
  rw [if_neg hne, ensureFold_noop REQUIRED_INVENTORY_HEADERS _ _ _ hall]
  cases t with
  | nil => exact absurd rfl ht
  | cons r rest => rfl

/-! ### Pipeline inversion lemmas -/

theorem phase1_ok_inv {f p : Table} {ctx : Ctx} (h : phase1 f p = Except.ok ctx) :
    ctx.erf = pyNorm (cellAt2 f 2 2) ∧ ctx.erf ≠ "" ∧
    scanForecast (getCol (_build_header_map ((f : List (List Cell)).headD [])) (pyLowerStr "RP"))
      (getCol (_build_header_map ((f : List (List Cell)).headD []))
        (pyLowerStr "Reporting Period - Start"))
      (getCol (_build_header_map ((f : List (List Cell)).headD []))
        (pyLowerStr "Reporting Period - End"))
      (getCol (_build_header_map ((f : List (List Cell)).headD []))
        (pyLowerStr "ACCUs Realised"))
      ((f : List (List Cell)).tail) 2 Option.none [] = Except.ok (ctx.frows, some ctx.cutoff) ∧
    ctx.ph = _build_header_map (((clean_mi_export p) : List (List Cell)).headD []) ∧
    (lookupKey ctx.ph "registry id").isSome ∧
    findRowByValue (getCol ctx.ph "registry id") ctx.erf
      (((clean_mi_export p) : List (List Cell)).tail) = some ctx.pRow := by
  unfold phase1 at h
  by_cases herf : pyNorm (cellAt2 f 2 2) = ""
  · rw [if_pos herf] at h
    simp [Bind.bind, Except.bind, throw, throwThe, MonadExceptOf.throw] at h
  · rw [if_neg herf] at h
    simp only [Bind.bind, Except.bind, Pure.pure, Except.pure] at h
    cases hchk : checkForecastHeaders (_build_header_map ((f : List (List Cell)).headD []))
        FORECAST_HEADER_KEYS with
    | error e =>
      rw [hchk] at h
      simp at h
    | ok u =>
      rw [hchk] at h
      cases hscan : scanForecast
          (getCol (_build_header_map ((f : List (List Cell)).headD [])) (pyLowerStr "RP"))
          (getCol (_build_header_map ((f : List (List Cell)).headD []))
            (pyLowerStr "Reporting Period - Start"))
          (getCol (_build_header_map ((f : List (List Cell)).headD []))
            (pyLowerStr "Reporting Period - End"))
          (getCol (_build_header_map ((f : List (List Cell)).headD []))
            (pyLowerStr "ACCUs Realised"))
          ((f : List (List Cell)).tail) 2 Option.none [] with
      | error e =>
        rw [hscan] at h
        simp at h
      | ok pr =>
        rcases pr with ⟨frows, cutoff?⟩
        rw [hscan] at h
        dsimp only at h
        cases cutoff? with
        | none =>
          simp [throw, throwThe, MonadExceptOf.throw] at h
        | some cutoff =>
          dsimp only at h
          by_cases hreg : (lookupKey (_build_header_map
              (((clean_mi_export p) : List (List Cell)).headD [])) "registry id").isNone
          · rw [if_pos hreg] at h
            simp at h
          · rw [if_neg hreg] at h
            cases hfind : findRowByValue
                (getCol (_build_header_map (((clean_mi_export p) : List (List Cell)).headD []))
                  "registry id")
                (pyNorm (cellAt2 f 2 2)) (((clean_mi_export p) : List (List Cell)).tail) with
            | none =>
              rw [hfind] at h
              simp [throw, throwThe, MonadExceptOf.throw] at h
            | some pRow =>
              rw [hfind] at h
              simp only [Except.ok.injEq] at h
              subst h
              refine ⟨rfl, herf, ?_, rfl, ?_, ?_⟩
              · dsimp only
              · dsimp only
                rw [Option.isSome_iff_ne_none]
                simpa using hreg
              · dsimp only
                exact hfind

theorem phase2_ok_inv {ctx : Ctx} {mC : Table} {d : Date} {o : RunOut}
    (h : phase2 ctx mC d = Except.ok o) :
    o.ctx = ctx ∧
    o.ih = (_ensure_headers mC).1 ∧
    o.ensured = (_ensure_headers mC).2 ∧
    lookupKey o.ih (pyLowerStr "Registry ID") = some o.regCol ∧
    lookupKey o.ih (pyLowerStr "Reporting Period - End") = some o.rpEndCol ∧
    o.width = maxCol o.ensured ∧
    o.snapshotHeaders = _row_as_list (((o.ensured : List (List Cell))).headD []) o.width ∧
    buildNewRows ctx.pRow ctx.ph o.ih d ctx.frows = Except.ok o.newRows ∧
    o.keptRows = (partitionRows ctx.erf ctx.cutoff o.regCol o.rpEndCol o.width
      ((o.ensured : List (List Cell)).tail)).2.2 ∧
    o.deletedRows = (partitionRows ctx.erf ctx.cutoff o.regCol o.rpEndCol o.width
      ((o.ensured : List (List Cell)).tail)).2.1 ∧
    o.inventory = ((((o.ensured : List (List Cell))).headD []) ::
      ((partitionRows ctx.erf ctx.cutoff o.regCol o.rpEndCol o.width
        ((o.ensured : List (List Cell)).tail)).1 ++ o.newRows) : List (List Cell)) ∧
    o.captured = o.newRows.map (captureRow o.ih) ∧
    o.newTotal = (match lastIdxOfStr REQUIRED_INVENTORY_HEADERS accuHeader with
      | some i => sumFloatsAt o.captured i
      | Option.none => 0) ∧
    o.removedTotal = (match lastIdxOfCell o.snapshotHeaders (Cell.str accuHeader) with
      | some i => sumFloatsAt o.deletedRows i
      | Option.none => 0) ∧
    o.delta = o.newTotal - o.removedTotal := by
  unfold phase2 at h
  dsimp only at h
  cases hreg : lookupKey (_ensure_headers mC).1 (pyLowerStr "Registry ID") with
  | none =>
    rw [hreg] at h
    simp [throw, throwThe, MonadExceptOf.throw] at h
  | some regCol =>
    rw [hreg] at h
    cases hend : lookupKey (_ensure_headers mC).1 (pyLowerStr "Reporting Period - End") with
    | none =>
      rw [hend] at h
      simp [throw, throwThe, MonadExceptOf.throw] at h
    | some rpEndCol =>
      rw [hend] at h
      dsimp only at h
      cases hbuild : buildNewRows ctx.pRow ctx.ph (_ensure_headers mC).1 d ctx.frows with
      | error e =>
        rw [hbuild] at h
        simp [Bind.bind, Except.bind] at h
      | ok newRows =>
        rw [hbuild] at h
        simp only [Bind.bind, Except.bind, Pure.pure, Except.pure, Except.ok.injEq] at h
        subst h
        refine ⟨rfl, rfl, rfl, ?_, ?_, rfl, rfl, ?_, rfl, rfl, rfl, rfl, rfl, rfl, rfl⟩
        · exact hreg
        · exact hend
        · exact hbuild

theorem add_ok_inv {f p m : Table} {d : Date} {o : RunOut}
    (h : add_forecast_to_inventory f p m d = Except.ok o) :
    phase1 f p = Except.ok o.ctx ∧ phase2 o.ctx (clean_mi_export m) d = Except.ok o := by
  unfold add_forecast_to_inventory at h
  cases hp1 : phase1 f p with
  | error e =>
    rw [hp1] at h
    simp [Bind.bind, Except.bind] at h
  | ok ctx =>
    rw [hp1] at h
    simp only [Bind.bind, Except.bind] at h
    have hctx : o.ctx = ctx := (phase2_ok_inv h).1
    rw [hctx]
    exact ⟨rfl, h⟩

theorem add_error_of_phase1 {f p : Table} {e : PyError} (m : Table) (d : Date)
    (h : phase1 f p = Except.error e) :
    add_forecast_to_inventory f p m d = Except.error e := by
  unfold add_forecast_to_inventory
  rw [h]
  rfl

theorem phase1_empty_error {f : Table} (p : Table)
    (herf : pyNorm (cellAt2 f 2 2) ≠ "")
    (hchk : checkForecastHeaders (_build_header_map ((f : List (List Cell)).headD []))
      FORECAST_HEADER_KEYS = Except.ok ())
    (hblank : ∀ row ∈ (f : List (List Cell)).tail,
      pyNorm (cellAt row (getCol (_build_header_map ((f : List (List Cell)).headD []))
        (pyLowerStr "RP"))) = "") :
    phase1 f p = Except.error
      (PyError.valueError "No forecast data rows found (RP column was empty).") := by
  unfold phase1
  rw [if_neg herf]
  simp only [Bind.bind, Except.bind, Pure.pure, Except.pure] at hchk ⊢
  rw [hchk]
  rw [scanForecast_skip_all _ _ _ _ _ 2 Option.none [] hblank]
  rfl


/-! ## Claim theorems -/

/-- C6 (counterexample): the claim "under both issuance policies, for every
period schedule …, the per-period issued amount is never negative and
cumulative_issued is monotone non-decreasing" fails for the flat-discount
policy: on the one-period schedule generated from first start 2020-01-01,
first end 2020-06-30, horizon 2020-06-30 (a schedule ending before the
project's CEA start), the only period's issued amount is
`(CBASE − 12821)·0.75 = −9168.165 < 0`, and the running cumulative value drops
from its initial 0 to −9168.165. -/
theorem C6_counterexample :
    (PF2020.forecastGo 1 Option.none 0
        (generate_rp_schedule ⟨2020, 1, 1⟩ ⟨2020, 6, 30⟩ ⟨2020, 6, 30⟩)).1.map
        (fun r => r.annual_credit_c_adj) = [-(1833633 / 200)] ∧
    (PF2020.forecastGo 1 Option.none 0
        (generate_rp_schedule ⟨2020, 1, 1⟩ ⟨2020, 6, 30⟩ ⟨2020, 6, 30⟩)).2 =
      [-(1833633 / 200)] ∧
    (-(1833633 / 200) : ℚ) < 0 := by decide

/-- C6 (amended): Under the ratcheted-cap policy (Coalara_Calculatorv2), for
every sequence of stock readings and any starting state, every issued amount
is ≥ 0 and the running `accumulated_accu` is monotone non-decreasing.  Under
the flat-discount policy (PF_2020 forecaster), the running `cum_c_adj` is
monotone non-decreasing provided every period's adjusted credit is ≥ 0 —
which holds, in particular, for the repository's configured schedule, on
which every per-period issued amount is also ≥ 0. -/
theorem C6_issuance_policies :
    (∀ (rs : List (Option ℚ)) (i : Nat) (acc : ℚ),
      (∀ r ∈ (issued_accu_run i acc rs).1, 0 ≤ r.issued_accu) ∧
      List.Chain' (· ≤ ·) (acc :: (issued_accu_run i acc rs).1.map (fun r => r.accumulated)) ∧
      acc ≤ (issued_accu_run i acc rs).2) ∧
    (∀ (sched : List (Date × Date)) (i : Nat) (prev : Option ℚ) (cum : ℚ),
      (∀ r ∈ (PF2020.forecastGo i prev cum sched).1, 0 ≤ r.annual_credit_c_adj) →
      List.Chain' (· ≤ ·) (cum :: (PF2020.forecastGo i prev cum sched).2)) ∧
    ((∀ r ∈ PF2020.forecast.1, 0 ≤ r.annual_credit_c_adj) ∧
      List.Chain' (· ≤ ·) (0 :: PF2020.forecast.2)) := by
  refine ⟨fun rs i acc => ?_, fun sched i prev cum h => forecastGo_monotone sched i prev cum h,
    ?_, ?_⟩
  · have h := issued_accu_run_invariant rs i acc
    exact ⟨h.1, h.2.1, h.2.2⟩
  · decide
  · exact forecastGo_monotone _ 1 Option.none 0 (by decide)

/-- Witness for C6: the amended theorem applied to a concrete reading sequence
(with a decreasing stock) and to a concrete one-period schedule. -/
theorem C6_issuance_policies_witness :
    (∀ r ∈ (issued_accu_run 0 0 [some 100, some 50, Option.none, some 2000]).1,
      0 ≤ r.issued_accu) ∧
    List.Chain' (· ≤ ·) ((0 : ℚ) ::
      (PF2020.forecastGo 1 Option.none 0 [(⟨2025, 10, 31⟩, ⟨2026, 6, 30⟩)]).2) :=
  ⟨(C6_issuance_policies.1 [some 100, some 50, Option.none, some 2000] 0 0).1,
   C6_issuance_policies.2.1 [(⟨2025, 10, 31⟩, ⟨2026, 6, 30⟩)] 1 Option.none 0 (by decide)⟩

/-- C7 (counterexample): the claim "for every generated schedule (any first
start/end with start ≤ end), consecutive periods satisfy
`period[i].end + 1 day = period[i+1].start`" fails on the repository's own
configured schedule: the first period ends 2026-06-30, so end + 1 day is
2026-07-01, but the second period starts 2026-10-31 — the generator leaves a
gap. -/
theorem C7_counterexample :
    Date.blt ⟨2025, 10, 31⟩ ⟨2026, 6, 30⟩ = true ∧
    1 < (generate_rp_schedule ⟨2025, 10, 31⟩ ⟨2026, 6, 30⟩ ⟨2046, 6, 30⟩).length ∧
    ((generate_rp_schedule ⟨2025, 10, 31⟩ ⟨2026, 6, 30⟩ ⟨2046, 6, 30⟩).getD 0
        default).2.addDays 1 = ⟨2026, 7, 1⟩ ∧
    ((generate_rp_schedule ⟨2025, 10, 31⟩ ⟨2026, 6, 30⟩ ⟨2046, 6, 30⟩).getD 1
        default).1 = ⟨2026, 10, 31⟩ ∧
    (⟨2026, 7, 1⟩ : Date) ≠ ⟨2026, 10, 31⟩ := by decide

/-- C7 (amended): every schedule produced by `generate_rp_schedule` consists
of the first period advanced year-by-year (`period[i] = (first_start + i
years, first_end + i years)`, iterated `relativedelta(years=1)`); both bounds
strictly increase from period to period; and consecutive periods are
contiguous (`period[i].end + 1 day = period[i+1].start`) exactly when the
iterated bounds satisfy that same equation — which fails for the repository's
configured first period (see the counterexample). -/
theorem C7_schedule_structure (fs fe le : Date) :
    (∀ i, i < (generate_rp_schedule fs fe le).length →
      (generate_rp_schedule fs fe le).getD i default =
        ((fun d => Date.addYears d 1)^[i] fs, (fun d => Date.addYears d 1)^[i] fe)) ∧
    (∀ i, i + 1 < (generate_rp_schedule fs fe le).length →
      (((generate_rp_schedule fs fe le).getD i default).1.blt
          ((generate_rp_schedule fs fe le).getD (i + 1) default).1 = true ∧
       ((generate_rp_schedule fs fe le).getD i default).2.blt
          ((generate_rp_schedule fs fe le).getD (i + 1) default).2 = true)) ∧
    (∀ i, i + 1 < (generate_rp_schedule fs fe le).length →
      ((((generate_rp_schedule fs fe le).getD i default).2.addDays 1 =
          ((generate_rp_schedule fs fe le).getD (i + 1) default).1) ↔
        (((fun d => Date.addYears d 1)^[i] fe).addDays 1 =
          (fun d => Date.addYears d 1)^[i + 1] fs))) := by
  refine ⟨fun i h => generate_rp_schedule_getD fs fe le i h, fun i h => ?_, fun i h => ?_⟩
  · rw [generate_rp_schedule_getD fs fe le i (by omega),
      generate_rp_schedule_getD fs fe le (i + 1) h]
    simp only [Function.iterate_succ_apply']
    exact ⟨blt_addYears_one _, blt_addYears_one _⟩
  · rw [generate_rp_schedule_getD fs fe le i (by omega),
      generate_rp_schedule_getD fs fe le (i + 1) h]

/-- Witness for C7: the amended theorem applied to the repository's configured
schedule at its first two periods. -/
theorem C7_schedule_structure_witness :
    (generate_rp_schedule ⟨2025, 10, 31⟩ ⟨2026, 6, 30⟩ ⟨2046, 6, 30⟩).getD 1 default =
      ((fun d => Date.addYears d 1)^[1] ⟨2025, 10, 31⟩,
       (fun d => Date.addYears d 1)^[1] ⟨2026, 6, 30⟩) ∧
    ((generate_rp_schedule ⟨2025, 10, 31⟩ ⟨2026, 6, 30⟩ ⟨2046, 6, 30⟩).getD 0
        default).1.blt
      ((generate_rp_schedule ⟨2025, 10, 31⟩ ⟨2026, 6, 30⟩ ⟨2046, 6, 30⟩).getD 1
        default).1 = true :=
  ⟨(C7_schedule_structure ⟨2025, 10, 31⟩ ⟨2026, 6, 30⟩ ⟨2046, 6, 30⟩).1 1 (by decide),
   ((C7_schedule_structure ⟨2025, 10, 31⟩ ⟨2026, 6, 30⟩ ⟨2046, 6, 30⟩).2.1 0 (by decide)).1⟩

/-- C8 (counterexample): the claim's numeric value is wrong.  At period end
2026-06-30 the interpolation model yields exactly
`728.8 + (60/180)·(149697 − 728.8)·0.75 = 37970.85`, which differs from the
claimed ≈ 37924.13 by 46.72 — far beyond any rounding tolerance. -/
theorem C8_counterexample :
    cp_at_months Coalara.CBASE Coalara.CLT
        (months_completed Coalara.CEA_START ⟨2026, 6, 30⟩) Coalara.DPP = 3797085 / 100 ∧
    (3797085 / 100 : ℚ) ≠ 3792413 / 100 ∧
    (3797085 / 100 : ℚ) - 3792413 / 100 = 4672 / 100 := by decide

/-- C8 (amended): with anchor 2021-06-25, base 728.8, target 149697, cap 180
months and permanence factor 0.75, the completed-month count at period end
2026-06-30 is 60 and the projected stock equals
`728.8 + (60/180)·(149697 − 728.8)·0.75 = 37970.85` exactly. -/
theorem C8_worked_example :
    months_completed Coalara.CEA_START ⟨2026, 6, 30⟩ = 60 ∧
    cp_at_months Coalara.CBASE Coalara.CLT 60 Coalara.DPP =
      Coalara.CBASE + (60 / 180) * (Coalara.CLT - Coalara.CBASE) * (3 / 4) ∧
    cp_at_months Coalara.CBASE Coalara.CLT 60 Coalara.DPP = 3797085 / 100 := by decide

/-- C10: the amount coercion `_to_float` is total and never raises: `None`,
the empty string, and any string that does not parse as a float after comma
removal and stripping coerce to exactly 0, numbers pass through exactly, and a
malformed cell contributes exactly 0 to a summed column total. -/
theorem C10_amount_coercion :
    _to_float Cell.none = 0 ∧
    _to_float (Cell.str "") = 0 ∧
    (∀ q : ℚ, _to_float (Cell.num q) = q) ∧
    (∀ s : String, s ≠ "" → pyFloat (strTrim (removeCommas s)) = Option.none →
      _to_float (Cell.str s) = 0) ∧
    (∀ (l1 l2 : List (List Cell)) (row : List Cell) (i : Nat),
      _to_float (row.getD i Cell.none) = 0 →
      sumFloatsAt (l1 ++ row :: l2) i = sumFloatsAt (l1 ++ l2) i) := by
  refine ⟨rfl, by decide, fun q => rfl, fun s hne hp => ?_, fun l1 l2 row i h => ?_⟩
  · have hcell : (Cell.str s = Cell.str "") = False := by
      simp [hne]
    simp only [_to_float, hcell, if_false, pyRepr]
    rw [hp]
  · unfold sumFloatsAt
    simp only [List.map_append, List.map_cons, List.sum_append, List.sum_cons, h]
    ring

/-- Witness for C10: the coercion theorem applied to the malformed string
"abc", to a string of commas and spaces, and to a concrete summed column
containing a malformed amount. -/
theorem C10_amount_coercion_witness :
    _to_float (Cell.str "abc") = 0 ∧
    _to_float (Cell.str " ,, ") = 0 ∧
    sumFloatsAt ([[Cell.num 3]] ++ [Cell.str "abc"] :: [[Cell.num 4]]) 0 =
      sumFloatsAt ([[Cell.num 3]] ++ [[Cell.num 4]]) 0 :=
  ⟨C10_amount_coercion.2.2.2.1 "abc" (by decide) (by decide),
   C10_amount_coercion.2.2.2.1 " ,, " (by decide) (by decide),
   C10_amount_coercion.2.2.2.2 [[Cell.num 3]] [[Cell.num 4]] [Cell.str "abc"] 0 (by decide)⟩

/-- C3: the spec's worked reconciliation example: on the ledger holding the
project's rows {end 2020-06-30, amount 1000} and {end 2026-06-30, amount 4500}
and the single forecast row {start 2025-10-31, end 2026-06-30, amount 5000},
the run succeeds, the 2020 row is kept (and still present in the rebuilt
ledger), the 2026 row is removed (and absent from the rebuilt ledger), exactly
one new row carrying amount 5000 is appended, and the reported lifetime delta
equals 5000 − 4500 = 500. -/
theorem C3_reconciliation_example :
    add_forecast_to_inventory exForecast exPortfolio exLedger exRunDate = Except.ok exOut ∧
    exOut.keptRows =
      [_row_as_list [Cell.str "Project X", Cell.str "PX", Cell.date ⟨2020, 6, 30⟩,
        Cell.num 1000] exOut.width] ∧
    [Cell.str "Project X", Cell.str "PX", Cell.date ⟨2020, 6, 30⟩, Cell.num 1000] ∈
      (exOut.inventory : List (List Cell)) ∧
    exOut.deletedRows =
      [_row_as_list [Cell.str "Project X", Cell.str "PX", Cell.date ⟨2026, 6, 30⟩,
        Cell.num 4500] exOut.width] ∧
    [Cell.str "Project X", Cell.str "PX", Cell.date ⟨2026, 6, 30⟩, Cell.num 4500] ∉
      (exOut.inventory : List (List Cell)) ∧
    exOut.rowsWritten = 1 ∧
    exOut.newRows.map (fun r => cellAt r (getCol exOut.ih (pyLowerStr accuHeader))) =
      [Cell.num 5000] ∧
    exOut.delta = 500 := by decide

/-- C2 (counterexample): the claim "when the run aborts with any error the
master ledger file is left byte-for-byte identical to its state before the
run" fails: on a Monday export whose blank first row precedes the header row,
`clean_mi_export` deletes that row and saves the workbook back in place
*before* any validation, so a run that then aborts (here: blank ERF cell B2)
still leaves the master file changed. -/
theorem C2_counterexample :
    add_forecast_to_inventory blankForecast exPortfolio junkLedger exRunDate =
      Except.error (PyError.valueError
        "ERF value was blank. Expected it in cell B2 of the forecast workbook.") ∧
    masterFileAfterRun blankForecast exPortfolio junkLedger exRunDate false ≠ junkLedger ∧
    masterFileAfterRun blankForecast exPortfolio junkLedger exRunDate true ≠ junkLedger := by
  decide

/-- C2 (amended): after the unconditional in-place pre-clean, the run is
all-or-nothing with respect to the master file: on any error the master file
holds exactly the cleaned pre-run export, and on success it holds the rebuilt
ledger when the configured output path is the master path and the cleaned
pre-run export otherwise. -/
theorem C2_ledger_file_semantics :
    (∀ (f p m : Table) (d : Date) (e : PyError) (flag : Bool),
      add_forecast_to_inventory f p m d = Except.error e →
      masterFileAfterRun f p m d flag = clean_mi_export m) ∧
    (∀ (f p m : Table) (d : Date) (o : RunOut),
      add_forecast_to_inventory f p m d = Except.ok o →
      masterFileAfterRun f p m d true = o.inventory ∧
      masterFileAfterRun f p m d false = clean_mi_export m) := by
  constructor
  · intro f p m d e flag h
    unfold masterFileAfterRun
    rw [h]
  · intro f p m d o h
    unfold masterFileAfterRun
    rw [h]
    exact ⟨rfl, rfl⟩

/-- Witness for C2: the amended file semantics applied to the aborting
blank-ERF run over the junk export and to the successful worked-example run. -/
theorem C2_ledger_file_semantics_witness :
    masterFileAfterRun blankForecast exPortfolio junkLedger exRunDate false =
      clean_mi_export junkLedger ∧
    masterFileAfterRun exForecast exPortfolio exLedger exRunDate true = exOut.inventory :=
  ⟨C2_ledger_file_semantics.1 blankForecast exPortfolio junkLedger exRunDate
      (PyError.valueError "ERF value was blank. Expected it in cell B2 of the forecast workbook.")
      false (by decide),
   (C2_ledger_file_semantics.2 exForecast exPortfolio exLedger exRunDate exOut (by decide)).1⟩

/-- C4 (counterexample): the claim names the empty-forecast failure
`ReconciliationAmbiguityError`; the code raises a plain
`ValueError("No forecast data rows found (RP column was empty).")`
(src/add_forecast_to_inventory.py:217), as this all-blank-RP forecast shows. -/
theorem C4_counterexample :
    add_forecast_to_inventory emptyRPForecast exPortfolio exLedger exRunDate =
      Except.error (PyError.valueError
        "No forecast data rows found (RP column was empty).") := by decide

/-- C4 (amended): on every successful run the cutoff is the minimum
`period_start` over the collected forecast rows (it is attained by some row
and is a lower bound for all); and whenever the B2 ERF check and the
forecast-header check pass but every forecast data row has a blank RP cell,
the run fails with the `ValueError` above — before phase 2, hence without the
delete/append cycle ever running. -/
theorem C4_cutoff_and_empty_forecast :
    (∀ (f p m : Table) (d : Date) (o : RunOut),
      add_forecast_to_inventory f p m d = Except.ok o →
      o.ctx.cutoff ∈ o.ctx.frows.map (fun fr => fr.rpStart) ∧
      ∀ fr ∈ o.ctx.frows, fr.rpStart.blt o.ctx.cutoff = false) ∧
    (∀ (f p m : Table) (d : Date),
      pyNorm (cellAt2 f 2 2) ≠ "" →
      checkForecastHeaders (_build_header_map ((f : List (List Cell)).headD []))
        FORECAST_HEADER_KEYS = Except.ok () →
      (∀ row ∈ (f : List (List Cell)).tail,
        pyNorm (cellAt row (getCol (_build_header_map ((f : List (List Cell)).headD []))
          (pyLowerStr "RP"))) = "") →
      add_forecast_to_inventory f p m d =
        Except.error (PyError.valueError
          "No forecast data rows found (RP column was empty).")) := by
  constructor
  · intro f p m d o h
    have hinv := phase1_ok_inv (add_ok_inv h).1
    exact scanForecast_min _ _ _ _ ((f : List (List Cell)).tail) 2 Option.none []
      o.ctx.frows o.ctx.cutoff hinv.2.2.1 (fun c0 hc => Option.noConfusion hc) (fun _ => rfl)
  · intro f p m d herf hchk hblank
    exact add_error_of_phase1 m d (phase1_empty_error p herf hchk hblank)

/-- Witness for C4: the cutoff-minimality part applied to the worked example
and the empty-forecast part applied to the blank-RP forecast. -/
theorem C4_cutoff_and_empty_forecast_witness :
    (exOut.ctx.cutoff ∈ exOut.ctx.frows.map (fun fr => fr.rpStart) ∧
      ∀ fr ∈ exOut.ctx.frows, fr.rpStart.blt exOut.ctx.cutoff = false) ∧
    add_forecast_to_inventory emptyRPForecast exPortfolio c5Ledger exRunDate =
      Except.error (PyError.valueError
        "No forecast data rows found (RP column was empty).") :=
  ⟨C4_cutoff_and_empty_forecast.1 exForecast exPortfolio exLedger exRunDate exOut (by decide),
   C4_cutoff_and_empty_forecast.2 emptyRPForecast exPortfolio c5Ledger exRunDate
     (by decide) (by decide) (by decide)⟩

/-- C5: conservative retention.  On every successful run, every pre-run
ledger data row whose registry-id cell matches the target project but whose
period-end cell does not parse as a date is never deleted: it appears
unchanged in the rebuilt ledger and its capture is counted among the kept
rows. -/
theorem C5_conservative_retention (f p m : Table) (d : Date) (o : RunOut)
    (h : add_forecast_to_inventory f p m d = Except.ok o)
    (row : List Cell)
    (hmem : row ∈ ((clean_mi_export m : Table) : List (List Cell)).tail)
    (hmatch : pyNorm (cellAt row o.regCol) = o.ctx.erf)
    (hunp : _to_datetime (cellAt row o.rpEndCol) = Option.none) :
    row ∈ (o.inventory : List (List Cell)) ∧ _row_as_list row o.width ∈ o.keptRows := by
  have hp2 := phase2_ok_inv (add_ok_inv h).2
  have hens := ensure_spec (clean_mi_export m)
  have htail : ((o.ensured : List (List Cell))).tail =
      ((clean_mi_export m : Table) : List (List Cell)).tail := by
    rw [hp2.2.2.1]
    exact hens.2.2.1
  have hmem2 : row ∈ ((o.ensured : List (List Cell))).tail := by
    rw [htail]
    exact hmem
  have hkm := partitionRows_keep_mem o.ctx.erf o.ctx.cutoff o.regCol o.rpEndCol o.width
    ((o.ensured : List (List Cell)).tail) row hmem2 hmatch hunp
  constructor
  · rw [hp2.2.2.2.2.2.2.2.2.2.2.1]
    exact List.mem_cons_of_mem _ (List.mem_append_left _ hkm.1)
  · rw [hp2.2.2.2.2.2.2.2.2.1]
    exact hkm.2

/-- Witness for C5: the retention theorem applied to the run over the ledger
whose matching row has the unparseable period-end "TBC". -/
theorem C5_conservative_retention_witness :
    [Cell.str "Project X", Cell.str "PX", Cell.str "TBC", Cell.num 700] ∈
      (c5Out.inventory : List (List Cell)) ∧
    _row_as_list [Cell.str "Project X", Cell.str "PX", Cell.str "TBC", Cell.num 700]
      c5Out.width ∈ c5Out.keptRows :=
  C5_conservative_retention exForecast exPortfolio c5Ledger exRunDate c5Out (by decide)
    [Cell.str "Project X", Cell.str "PX", Cell.str "TBC", Cell.num 700]
    (by decide) (by decide) (by decide)

theorem applyWrites_last_key (ih : List (String × Nat)) (hg : HMGood ih)
    (l1 l2 : List (String × Cell)) (name : String) (v : Cell) (keys : List String)
    (hkeys : l2.map Prod.fst = keys)
    (hsome : (lookupKey ih (pyLowerStr name)).isSome)
    (hafter : ∀ s ∈ keys, pyLowerStr s ≠ pyLowerStr name) :
    cellAt (applyWrites ih [] (l1 ++ (name, v) :: l2)) (getCol ih (pyLowerStr name)) = v := by
  rcases Option.isSome_iff_exists.mp hsome with ⟨c, hc⟩
  have hgc : getCol ih (pyLowerStr name) = c := by simp [getCol, hc]
  rw [hgc]
  apply cellAt_applyWrites_last ih [] l1 l2 name v c hg.2 hc
  intro p hp
  apply hit_other_col hg hc
  apply hafter p.1
  rw [← hkeys]
  exact List.mem_map_of_mem _ hp

theorem buildNewRow_writes {pRow : List Cell} {ph ih : List (String × Nat)} {d : Date}
    {fr : FRow} {e : Date} {row : List Cell} (hend : fr.rpEnd = some e)
    (h : buildNewRow pRow ph ih d fr = Except.ok row) :
    row = applyWrites ih [] (newRowWrites pRow ph fr e d) := by
  unfold buildNewRow at h
  rw [hend] at h
  dsimp only at h
  cases hpw : portfolioWrites pRow ph PORTFOLIO_FIELDS with
  | error e2 =>
    rw [hpw] at h
    exact absurd h (by simp [Bind.bind, Except.bind])
  | ok pw =>
    rw [hpw] at h
    simp only [Bind.bind, Except.bind, Except.ok.injEq] at h
    rw [← h, portfolioWrites_ok pRow ph PORTFOLIO_FIELDS pw hpw]
    rfl

/-- C9 (counterexample): the claim says the appended ledger row copies the
forecast row's period bounds *unchanged*, but the code writes
`fr["period_start"] + timedelta(days=1)` into `Reporting Period - Start`
(src/add_forecast_to_inventory.py:311): in the worked example the forecast
start 2025-10-31 is stored as 2025-11-01. -/
theorem C9_counterexample :
    exOut.newRows.map (fun r =>
      cellAt r (getCol exOut.ih (pyLowerStr "Reporting Period - Start"))) =
      [Cell.date ⟨2025, 11, 1⟩] ∧
    exOut.ctx.frows.map (fun fr => fr.rpStart) = [⟨2025, 10, 31⟩] ∧
    (⟨2025, 11, 1⟩ : Date) ≠ ⟨2025, 10, 31⟩ := by decide

/-- C9 (amended): every row the append loop constructs copies the thirteen
project-metadata fields from the portfolio row found by registry id (with
`Project ID` retargeted to `Project Number`), stores the period start **plus
one day**, the period end unchanged, and the forecast amount unchanged,
derives `Forecasted Submission Date = period_end + 2 days` and
`Date - Total Amount = period_end + 92 days`, and sets status `Forecasted` —
provided the inventory header map is well-formed and contains the required
headers, as `_ensure_headers` guarantees. -/
theorem C9_new_row_construction (pRow : List Cell) (ph ih : List (String × Nat))
    (d : Date) (fr : FRow) (e : Date) (row : List Cell)
    (hg : HMGood ih)
    (hreq : ∀ k ∈ REQUIRED_INVENTORY_HEADERS, (lookupKey ih (pyLowerStr k)).isSome)
    (hend : fr.rpEnd = some e)
    (h : buildNewRow pRow ph ih d fr = Except.ok row) :
    cellAt row (getCol ih (pyLowerStr "Name")) = cellAt pRow (getCol ph "name") ∧
    cellAt row (getCol ih (pyLowerStr "Subitems")) = cellAt pRow (getCol ph "subitems") ∧
    cellAt row (getCol ih (pyLowerStr "Registry ID")) = cellAt pRow (getCol ph "registry id") ∧
    cellAt row (getCol ih (pyLowerStr "Project Number")) = cellAt pRow (getCol ph "project id") ∧
    cellAt row (getCol ih (pyLowerStr "Methodology")) = cellAt pRow (getCol ph "methodology") ∧
    cellAt row (getCol ih (pyLowerStr "Project Stage")) = cellAt pRow (getCol ph "project stage") ∧
    cellAt row (getCol ih (pyLowerStr "Proponents")) = cellAt pRow (getCol ph "proponents") ∧
    cellAt row (getCol ih (pyLowerStr "Business Unit")) = cellAt pRow (getCol ph "business unit") ∧
    cellAt row (getCol ih (pyLowerStr "Operational Model")) = cellAt pRow (getCol ph "operational model") ∧
    cellAt row (getCol ih (pyLowerStr "Fee Model")) = cellAt pRow (getCol ph "fee model") ∧
    cellAt row (getCol ih (pyLowerStr "Entity")) = cellAt pRow (getCol ph "entity") ∧
    cellAt row (getCol ih (pyLowerStr "Number")) = cellAt pRow (getCol ph "number") ∧
    cellAt row (getCol ih (pyLowerStr "Unit")) = cellAt pRow (getCol ph "unit") ∧
    cellAt row (getCol ih (pyLowerStr "Reporting Period - Start")) = Cell.date (fr.rpStart.addDays 1) ∧
    cellAt row (getCol ih (pyLowerStr "Reporting Period - End")) = Cell.date e ∧
    cellAt row (getCol ih (pyLowerStr "Total Amount (ACCUs)")) = fr.accus ∧
    cellAt row (getCol ih (pyLowerStr "Forecasted Submission Date")) = Cell.date (e.addDays 2) ∧
    cellAt row (getCol ih (pyLowerStr "Date - Total Amount")) = Cell.date (e.addDays 92) ∧
    cellAt row (getCol ih (pyLowerStr "Status")) = Cell.str "Forecasted" := by
  rw [buildNewRow_writes hend h]
  refine ⟨?_, ?_, ?_, ?_, ?_, ?_, ?_, ?_, ?_, ?_, ?_, ?_, ?_, ?_, ?_, ?_, ?_, ?_, ?_⟩
  · exact applyWrites_last_key ih hg ((newRowWrites pRow ph fr e d).take 0)
      ((newRowWrites pRow ph fr e d).drop 1) "Name" _
      ["Subitems", "Registry ID", "Project Number", "Methodology", "Project Stage", "Proponents", "Business Unit", "Operational Model", "Fee Model", "Entity", "Number", "Unit", "RP", "Reporting Period - Start", "Reporting Period - End", "Total Amount (ACCUs)", "Forecasted Submission Date", "Date - Total Amount", "Status", "Data Update Date"] rfl (hreq "Name" (by decide)) (by decide)
  · exact applyWrites_last_key ih hg ((newRowWrites pRow ph fr e d).take 1)
      ((newRowWrites pRow ph fr e d).drop 2) "Subitems" _
      ["Registry ID", "Project Number", "Methodology", "Project Stage", "Proponents", "Business Unit", "Operational Model", "Fee Model", "Entity", "Number", "Unit", "RP", "Reporting Period - Start", "Reporting Period - End", "Total Amount (ACCUs)", "Forecasted Submission Date", "Date - Total Amount", "Status", "Data Update Date"] rfl (hreq "Subitems" (by decide)) (by decide)
  · exact applyWrites_last_key ih hg ((newRowWrites pRow ph fr e d).take 2)
      ((newRowWrites pRow ph fr e d).drop 3) "Registry ID" _
      ["Project Number", "Methodology", "Project Stage", "Proponents", "Business Unit", "Operational Model", "Fee Model", "Entity", "Number", "Unit", "RP", "Reporting Period - Start", "Reporting Period - End", "Total Amount (ACCUs)", "Forecasted Submission Date", "Date - Total Amount", "Status", "Data Update Date"] rfl (hreq "Registry ID" (by decide)) (by decide)
  · exact applyWrites_last_key ih hg ((newRowWrites pRow ph fr e d).take 3)
      ((newRowWrites pRow ph fr e d).drop 4) "Project Number" _
      ["Methodology", "Project Stage", "Proponents", "Business Unit", "Operational Model", "Fee Model", "Entity", "Number", "Unit", "RP", "Reporting Period - Start", "Reporting Period - End", "Total Amount (ACCUs)", "Forecasted Submission Date", "Date - Total Amount", "Status", "Data Update Date"] rfl (hreq "Project Number" (by decide)) (by decide)
  · exact applyWrites_last_key ih hg ((newRowWrites pRow ph fr e d).take 4)
      ((newRowWrites pRow ph fr e d).drop 5) "Methodology" _
      ["Project Stage", "Proponents", "Business Unit", "Operational Model", "Fee Model", "Entity", "Number", "Unit", "RP", "Reporting Period - Start", "Reporting Period - End", "Total Amount (ACCUs)", "Forecasted Submission Date", "Date - Total Amount", "Status", "Data Update Date"] rfl (hreq "Methodology" (by decide)) (by decide)
  · exact applyWrites_last_key ih hg ((newRowWrites pRow ph fr e d).take 5)
      ((newRowWrites pRow ph fr e d).drop 6) "Project Stage" _
      ["Proponents", "Business Unit", "Operational Model", "Fee Model", "Entity", "Number", "Unit", "RP", "Reporting Period - Start", "Reporting Period - End", "Total Amount (ACCUs)", "Forecasted Submission Date", "Date - Total Amount", "Status", "Data Update Date"] rfl (hreq "Project Stage" (by decide)) (by decide)
  · exact applyWrites_last_key ih hg ((newRowWrites pRow ph fr e d).take 6)
      ((newRowWrites pRow ph fr e d).drop 7) "Proponents" _
      ["Business Unit", "Operational Model", "Fee Model", "Entity", "Number", "Unit", "RP", "Reporting Period - Start", "Reporting Period - End", "Total Amount (ACCUs)", "Forecasted Submission Date", "Date - Total Amount", "Status", "Data Update Date"] rfl (hreq "Proponents" (by decide)) (by decide)
  · exact applyWrites_last_key ih hg ((newRowWrites pRow ph fr e d).take 7)
      ((newRowWrites pRow ph fr e d).drop 8) "Business Unit" _
      ["Operational Model", "Fee Model", "Entity", "Number", "Unit", "RP", "Reporting Period - Start", "Reporting Period - End", "Total Amount (ACCUs)", "Forecasted Submission Date", "Date - Total Amount", "Status", "Data Update Date"] rfl (hreq "Business Unit" (by decide)) (by decide)
  · exact applyWrites_last_key ih hg ((newRowWrites pRow ph fr e d).take 8)
      ((newRowWrites pRow ph fr e d).drop 9) "Operational Model" _
      ["Fee Model", "Entity", "Number", "Unit", "RP", "Reporting Period - Start", "Reporting Period - End", "Total Amount (ACCUs)", "Forecasted Submission Date", "Date - Total Amount", "Status", "Data Update Date"] rfl (hreq "Operational Model" (by decide)) (by decide)
  · exact applyWrites_last_key ih hg ((newRowWrites pRow ph fr e d).take 9)
      ((newRowWrites pRow ph fr e d).drop 10) "Fee Model" _
      ["Entity", "Number", "Unit", "RP", "Reporting Period - Start", "Reporting Period - End", "Total Amount (ACCUs)", "Forecasted Submission Date", "Date - Total Amount", "Status", "Data Update Date"] rfl (hreq "Fee Model" (by decide)) (by decide)
  · exact applyWrites_last_key ih hg ((newRowWrites pRow ph fr e d).take 10)
      ((newRowWrites pRow ph fr e d).drop 11) "Entity" _
      ["Number", "Unit", "RP", "Reporting Period - Start", "Reporting Period - End", "Total Amount (ACCUs)", "Forecasted Submission Date", "Date - Total Amount", "Status", "Data Update Date"] rfl (hreq "Entity" (by decide)) (by decide)
  · exact applyWrites_last_key ih hg ((newRowWrites pRow ph fr e d).take 11)
      ((newRowWrites pRow ph fr e d).drop 12) "Number" _
      ["Unit", "RP", "Reporting Period - Start", "Reporting Period - End", "Total Amount (ACCUs)", "Forecasted Submission Date", "Date - Total Amount", "Status", "Data Update Date"] rfl (hreq "Number" (by decide)) (by decide)
  · exact applyWrites_last_key ih hg ((newRowWrites pRow ph fr e d).take 12)
      ((newRowWrites pRow ph fr e d).drop 13) "Unit" _
      ["RP", "Reporting Period - Start", "Reporting Period - End", "Total Amount (ACCUs)", "Forecasted Submission Date", "Date - Total Amount", "Status", "Data Update Date"] rfl (hreq "Unit" (by decide)) (by decide)
  · exact applyWrites_last_key ih hg ((newRowWrites pRow ph fr e d).take 14)
      ((newRowWrites pRow ph fr e d).drop 15) "Reporting Period - Start" _
      ["Reporting Period - End", "Total Amount (ACCUs)", "Forecasted Submission Date", "Date - Total Amount", "Status", "Data Update Date"] rfl (hreq "Reporting Period - Start" (by decide)) (by decide)
  · exact applyWrites_last_key ih hg ((newRowWrites pRow ph fr e d).take 15)
      ((newRowWrites pRow ph fr e d).drop 16) "Reporting Period - End" _
      ["Total Amount (ACCUs)", "Forecasted Submission Date", "Date - Total Amount", "Status", "Data Update Date"] rfl (hreq "Reporting Period - End" (by decide)) (by decide)
  · exact applyWrites_last_key ih hg ((newRowWrites pRow ph fr e d).take 16)
      ((newRowWrites pRow ph fr e d).drop 17) "Total Amount (ACCUs)" _
      ["Forecasted Submission Date", "Date - Total Amount", "Status", "Data Update Date"] rfl (hreq "Total Amount (ACCUs)" (by decide)) (by decide)
  · exact applyWrites_last_key ih hg ((newRowWrites pRow ph fr e d).take 17)
      ((newRowWrites pRow ph fr e d).drop 18) "Forecasted Submission Date" _
      ["Date - Total Amount", "Status", "Data Update Date"] rfl (hreq "Forecasted Submission Date" (by decide)) (by decide)
  · exact applyWrites_last_key ih hg ((newRowWrites pRow ph fr e d).take 18)
      ((newRowWrites pRow ph fr e d).drop 19) "Date - Total Amount" _
      ["Status", "Data Update Date"] rfl (hreq "Date - Total Amount" (by decide)) (by decide)
  · exact applyWrites_last_key ih hg ((newRowWrites pRow ph fr e d).take 19)
      ((newRowWrites pRow ph fr e d).drop 20) "Status" _
      ["Data Update Date"] rfl (hreq "Status" (by decide)) (by decide)

/-- Witness for C9: the construction theorem applied to the worked example's
portfolio row, a fully populated inventory header map, and the example's
forecast row. -/
theorem C9_new_row_construction_witness :
    cellAt c9Row (getCol fullIh (pyLowerStr "Name")) = cellAt exPRow (getCol exPh "name") ∧
    cellAt c9Row (getCol fullIh (pyLowerStr "Subitems")) = cellAt exPRow (getCol exPh "subitems") ∧
    cellAt c9Row (getCol fullIh (pyLowerStr "Registry ID")) = cellAt exPRow (getCol exPh "registry id") ∧
    cellAt c9Row (getCol fullIh (pyLowerStr "Project Number")) = cellAt exPRow (getCol exPh "project id") ∧
    cellAt c9Row (getCol fullIh (pyLowerStr "Methodology")) = cellAt exPRow (getCol exPh "methodology") ∧
    cellAt c9Row (getCol fullIh (pyLowerStr "Project Stage")) = cellAt exPRow (getCol exPh "project stage") ∧
    cellAt c9Row (getCol fullIh (pyLowerStr "Proponents")) = cellAt exPRow (getCol exPh "proponents") ∧
    cellAt c9Row (getCol fullIh (pyLowerStr "Business Unit")) = cellAt exPRow (getCol exPh "business unit") ∧
    cellAt c9Row (getCol fullIh (pyLowerStr "Operational Model")) = cellAt exPRow (getCol exPh "operational model") ∧
    cellAt c9Row (getCol fullIh (pyLowerStr "Fee Model")) = cellAt exPRow (getCol exPh "fee model") ∧
    cellAt c9Row (getCol fullIh (pyLowerStr "Entity")) = cellAt exPRow (getCol exPh "entity") ∧
    cellAt c9Row (getCol fullIh (pyLowerStr "Number")) = cellAt exPRow (getCol exPh "number") ∧
    cellAt c9Row (getCol fullIh (pyLowerStr "Unit")) = cellAt exPRow (getCol exPh "unit") ∧
    cellAt c9Row (getCol fullIh (pyLowerStr "Reporting Period - Start")) = Cell.date (exFr.rpStart.addDays 1) ∧
    cellAt c9Row (getCol fullIh (pyLowerStr "Reporting Period - End")) = Cell.date (⟨2026, 6, 30⟩ : Date) ∧
    cellAt c9Row (getCol fullIh (pyLowerStr "Total Amount (ACCUs)")) = exFr.accus ∧
    cellAt c9Row (getCol fullIh (pyLowerStr "Forecasted Submission Date")) = Cell.date ((⟨2026, 6, 30⟩ : Date).addDays 2) ∧
    cellAt c9Row (getCol fullIh (pyLowerStr "Date - Total Amount")) = Cell.date ((⟨2026, 6, 30⟩ : Date).addDays 92) ∧
    cellAt c9Row (getCol fullIh (pyLowerStr "Status")) = Cell.str "Forecasted" :=
  C9_new_row_construction exPRow exPh fullIh exRunDate exFr ⟨2026, 6, 30⟩ c9Row
    (by decide) (by decide) (by decide) (by decide)

/-! ### Lookup-congruence and idempotency helpers -/

theorem lookupKey_ne_nil {hm : List (String × Nat)} {k : String}
    (h : (lookupKey hm k).isSome) : hm ≠ [] := by
  intro he
  subst he
  simp [lookupKey] at h

theorem applyWrites_congr (ih1 ih2 : List (String × Nat))
    (hcong : ∀ k, lookupKey ih1 k = lookupKey ih2 k) (row : List Cell)
    (ws : List (String × Cell)) :
    applyWrites ih1 row ws = applyWrites ih2 row ws := by
  induction ws generalizing row with
  | nil => rfl
  | cons e rest ih =>
    rcases e with ⟨name, v⟩
    simp only [applyWrites]
    rw [show pyWrite ih1 row name v = pyWrite ih2 row name v from by
      unfold pyWrite
      rw [hcong]]
    exact ih _

theorem buildNewRow_congr (pRow : List Cell) (ph ih1 ih2 : List (String × Nat))
    (hcong : ∀ k, lookupKey ih1 k = lookupKey ih2 k) (d : Date) (fr : FRow) :
    buildNewRow pRow ph ih1 d fr = buildNewRow pRow ph ih2 d fr := by
  unfold buildNewRow
  cases fr.rpEnd with
  | none => rfl
  | some e =>
    dsimp only
    cases hpw : portfolioWrites pRow ph PORTFOLIO_FIELDS with
    | error e2 => rfl
    | ok pw =>
      simp only [Bind.bind, Except.bind]
      rw [applyWrites_congr ih1 ih2 hcong]

theorem buildNewRows_congr (pRow : List Cell) (ph ih1 ih2 : List (String × Nat))
    (hcong : ∀ k, lookupKey ih1 k = lookupKey ih2 k) (d : Date) :
    ∀ frs : List FRow, buildNewRows pRow ph ih1 d frs = buildNewRows pRow ph ih2 d frs := by
  intro frs
  induction frs with
  | nil => rfl
  | cons fr rest ih =>
    simp only [buildNewRows]
    rw [buildNewRow_congr pRow ph ih1 ih2 hcong d fr, ih]

theorem captureRow_congr (ih1 ih2 : List (String × Nat))
    (hcong : ∀ k, lookupKey ih1 k = lookupKey ih2 k) (row : List Cell) :
    captureRow ih1 row = captureRow ih2 row := by
  unfold captureRow
  congr 1
  funext h
  rw [hcong]

theorem buildNewRow_ok_end {pRow : List Cell} {ph ih : List (String × Nat)} {d : Date}
    {fr : FRow} {row : List Cell} (h : buildNewRow pRow ph ih d fr = Except.ok row) :
    ∃ e, fr.rpEnd = some e := by
  cases he : fr.rpEnd with
  | none =>
    unfold buildNewRow at h
    rw [he] at h
    exact absurd h (by simp)
  | some e => exact ⟨e, rfl⟩

theorem forall2_mem_right {α β : Type} {R : α → β → Prop} :
    ∀ {l1 : List α} {l2 : List β}, List.Forall₂ R l1 l2 → ∀ b ∈ l2, ∃ a ∈ l1, R a b := by
  intro l1 l2 h
  induction h with
  | nil =>
    intro b hb
    simp at hb
  | cons hr _ ih =>
    intro b hb
    rcases List.mem_cons.mp hb with hb | hb
    · subst hb
      exact ⟨_, List.mem_cons_self _ _, hr⟩
    · rcases ih b hb with ⟨a, ha, hra⟩
      exact ⟨a, List.mem_cons_of_mem _ ha, hra⟩

theorem newRow_reg_cell {pRow : List Cell} {ph ih : List (String × Nat)} {d : Date}
    {fr : FRow} {e : Date} {row : List Cell} {c : Nat}
    (hg : HMGood ih)
    (hlk : lookupKey ih (pyLowerStr "Registry ID") = some c)
    (hend : fr.rpEnd = some e)
    (h : buildNewRow pRow ph ih d fr = Except.ok row) :
    cellAt row c = cellAt pRow (getCol ph "registry id") := by
  rw [buildNewRow_writes hend h]
  have hres := applyWrites_last_key ih hg ((newRowWrites pRow ph fr e d).take 2)
    ((newRowWrites pRow ph fr e d).drop 3) "Registry ID" (cellAt pRow (getCol ph "registry id"))
    ["Project Number", "Methodology", "Project Stage", "Proponents", "Business Unit",
     "Operational Model", "Fee Model", "Entity", "Number", "Unit", "RP",
     "Reporting Period - Start", "Reporting Period - End", "Total Amount (ACCUs)",
     "Forecasted Submission Date", "Date - Total Amount", "Status", "Data Update Date"]
    rfl (by rw [hlk]; rfl) (by decide)
  rw [show getCol ih (pyLowerStr "Registry ID") = c from by simp [getCol, hlk]] at hres
  exact hres

theorem newRow_end_cell {pRow : List Cell} {ph ih : List (String × Nat)} {d : Date}
    {fr : FRow} {e : Date} {row : List Cell} {c : Nat}
    (hg : HMGood ih)
    (hlk : lookupKey ih (pyLowerStr "Reporting Period - End") = some c)
    (hend : fr.rpEnd = some e)
    (h : buildNewRow pRow ph ih d fr = Except.ok row) :
    cellAt row c = Cell.date e := by
  rw [buildNewRow_writes hend h]
  have hres := applyWrites_last_key ih hg ((newRowWrites pRow ph fr e d).take 15)
    ((newRowWrites pRow ph fr e d).drop 16) "Reporting Period - End" (Cell.date e)
    ["Total Amount (ACCUs)", "Forecasted Submission Date", "Date - Total Amount",
     "Status", "Data Update Date"]
    rfl (by rw [hlk]; rfl) (by decide)
  rw [show getCol ih (pyLowerStr "Reporting Period - End") = c from by simp [getCol, hlk]] at hres
  exact hres

theorem sumFloatsAt_cons (r : List Cell) (rest : List (List Cell)) (i : Nat) :
    sumFloatsAt (r :: rest) i = _to_float (r.getD i Cell.none) + sumFloatsAt rest i := rfl

theorem sumFloatsAt_maps (l : List (List Cell)) (f g : List Cell → List Cell) (i j : Nat)
    (h : ∀ r ∈ l, _to_float ((f r).getD i Cell.none) = _to_float ((g r).getD j Cell.none)) :
    sumFloatsAt (l.map f) i = sumFloatsAt (l.map g) j := by
  induction l with
  | nil => rfl
  | cons r rest ih =>
    rw [List.map_cons, List.map_cons, sumFloatsAt_cons, sumFloatsAt_cons,
      h r (List.mem_cons_self _ _), ih (fun x hx => h x (List.mem_cons_of_mem _ hx))]

theorem captureRow_getD_accu (ih : List (String × Nat)) (row : List Cell) {c : Nat}
    (hlk : lookupKey ih (pyLowerStr accuHeader) = some c) :
    (captureRow ih row).getD 8 Cell.none = cellAt row c := by
  unfold captureRow
  rw [List.getD_eq_getElem?_getD, List.getElem?_map,
    show REQUIRED_INVENTORY_HEADERS[8]? = some accuHeader from rfl]
  simp only [Option.map_some', Option.getD_some]
  rw [hlk]

/-- C1 (counterexample): reconciliation is not idempotent in general.  With
a forecast row whose period end equals its period start (and hence equals the
cutoff), the first run's appended row has a period end that is *not* strictly
after the cutoff, so the second run with the identical forecast keeps it in
place, appends a duplicate, and reports a non-zero second-run delta. -/
theorem C1_counterexample :
    add_forecast_to_inventory degForecast exPortfolio exLedger exRunDate =
      Except.ok degOut1 ∧
    add_forecast_to_inventory degForecast exPortfolio degOut1.inventory exRunDate =
      Except.ok degOut2 ∧
    degOut2.inventory ≠ degOut1.inventory ∧
    degOut2.delta ≠ 0 ∧
    degOut2.delta = 5000 := by decide

/-- C1 (amended): a second run with the identical forecast is idempotent
under three provisos the general claim omits: every collected forecast row's
period end lies strictly after the cutoff, the first run's rebuilt ledger is
a fixed point of the Monday-export cleaner, and the snapshot header scan
locates `Total Amount (ACCUs)` in the same column as the header map.  Then
the second run succeeds, rebuilds a ledger identical to the first run's
output, and reports a lifetime delta of exactly 0. -/
theorem C1_idempotency (f p m : Table) (d : Date) (o1 : RunOut)
    (h1 : add_forecast_to_inventory f p m d = Except.ok o1)
    (hAfter : ∀ fr ∈ o1.ctx.frows, ∀ e, fr.rpEnd = some e → o1.ctx.cutoff.blt e = true)
    (hclean : clean_mi_export o1.inventory = o1.inventory)
    (hSnap : ∃ c, lookupKey o1.ih (pyLowerStr accuHeader) = some c ∧
      lastIdxOfCell (_row_as_list ((o1.inventory : List (List Cell)).headD [])
        (maxCol o1.inventory)) (Cell.str accuHeader) = some (c - 1)) :
    ∃ o2 : RunOut, add_forecast_to_inventory f p o1.inventory d = Except.ok o2 ∧
      o2.inventory = o1.inventory ∧ o2.delta = 0 := by
  obtain ⟨hp1, hp2raw⟩ := add_ok_inv h1
  obtain ⟨-, hih, hens, hreg1, hrend1, -, -, hbuild1, -, -, hinv, -, -, -, -⟩ :=
    phase2_ok_inv hp2raw
  obtain ⟨c, hc1, hc2⟩ := hSnap
  have hensS := ensure_spec (clean_mi_export m)
  have hgood1 : HMGood o1.ih := by
    rw [hih]
    exact hensS.2.2.2.1
  have hreq1 : ∀ k ∈ REQUIRED_INVENTORY_HEADERS, (lookupKey o1.ih (pyLowerStr k)).isSome := by
    rw [hih]
    exact hensS.2.1
  -- head and tail of the first run's output
  have hhead : ((o1.inventory : List (List Cell))).headD [] =
      ((o1.ensured : List (List Cell))).headD [] := by
    rw [hinv]
    rfl
  have htail2 : ((o1.inventory : List (List Cell))).tail =
      (partitionRows o1.ctx.erf o1.ctx.cutoff o1.regCol o1.rpEndCol o1.width
        ((o1.ensured : List (List Cell)).tail)).1 ++ o1.newRows := by
    rw [hinv]
    rfl
  -- the second run's header map answers every lookup like the first run's
  have hcong2 : ∀ k,
      lookupKey (_build_header_map ((o1.inventory : List (List Cell)).headD [])) k =
      lookupKey o1.ih k := by
    intro k
    rw [hih, hhead, hens]
    exact hensS.1 k
  -- `_ensure_headers` is a no-op on the rebuilt ledger
  have hne2 : _build_header_map ((o1.inventory : List (List Cell)).headD []) ≠ [] := by
    apply lookupKey_ne_nil (k := pyLowerStr "Name")
    rw [hcong2]
    exact hreq1 "Name" (by decide)
  have hall2 : ∀ k ∈ REQUIRED_INVENTORY_HEADERS,
      (lookupKey (_build_header_map ((o1.inventory : List (List Cell)).headD []))
        (pyLowerStr k)).isSome := by
    intro k hk
    rw [hcong2]
    exact hreq1 k hk
  have hm2ne : o1.inventory ≠ ([] : List (List Cell)) := by
    rw [hinv]
    exact List.cons_ne_nil _ _
  have hens2 := ensure_noop o1.inventory hne2 hall2 hm2ne
  -- second-run column lookups
  have hreg2 : lookupKey (_build_header_map ((o1.inventory : List (List Cell)).headD []))
      (pyLowerStr "Registry ID") = some o1.regCol := by
    rw [hcong2]
    exact hreg1
  have hrend2 : lookupKey (_build_header_map ((o1.inventory : List (List Cell)).headD []))
      (pyLowerStr "Reporting Period - End") = some o1.rpEndCol := by
    rw [hcong2]
    exact hrend1
  -- the second run rebuilds the same forecast rows
  have hbuild2 : buildNewRows o1.ctx.pRow o1.ctx.ph
      (_build_header_map ((o1.inventory : List (List Cell)).headD [])) d o1.ctx.frows =
      Except.ok o1.newRows := by
    rw [buildNewRows_congr _ _ _ o1.ih hcong2 d]
    exact hbuild1
  -- the second run's phase 2 succeeds
  have hphase2ex : ∃ o2 : RunOut, phase2 o1.ctx o1.inventory d = Except.ok o2 := by
    unfold phase2
    dsimp only
    rw [hens2]
    dsimp only
    rw [hreg2]
    dsimp only
    rw [hrend2]
    dsimp only
    rw [hbuild2]
    simp only [Bind.bind, Except.bind, Pure.pure, Except.pure]
    exact ⟨_, rfl⟩
  obtain ⟨o2, hrun2phase⟩ := hphase2ex
  have hadd2 : add_forecast_to_inventory f p o1.inventory d =
      phase2 o1.ctx (clean_mi_export o1.inventory) d := by
    unfold add_forecast_to_inventory
    rw [hp1]
    rfl
  rw [hclean] at hadd2
  -- invert the second run
  obtain ⟨-, ho2ih, ho2ens, ho2reg, ho2rend, ho2w, ho2snap, ho2build, -, ho2del, ho2inv,
    ho2cap, ho2newT, ho2remT, ho2delta⟩ := phase2_ok_inv hrun2phase
  rw [hens2] at ho2ih ho2ens
  dsimp only at ho2ih ho2ens
  have hregEq : o2.regCol = o1.regCol := by
    rw [ho2ih, hreg2] at ho2reg
    exact (Option.some.inj ho2reg).symm
  have hrendEq : o2.rpEndCol = o1.rpEndCol := by
    rw [ho2ih, hrend2] at ho2rend
    exact (Option.some.inj ho2rend).symm
  have hnewEq : o2.newRows = o1.newRows := by
    rw [ho2ih, hbuild2] at ho2build
    injection ho2build with h
    exact h.symm
  rw [ho2ens] at ho2w
  -- every appended row matches the project and has a deletable period end
  have hdelAll : ∀ row ∈ o1.newRows,
      delPred o1.ctx.erf o1.ctx.cutoff o1.regCol o1.rpEndCol row := by
    intro row hrow
    obtain ⟨fr, hfrmem, hbr⟩ :=
      forall2_mem_right (buildNewRows_forall2 _ _ _ _ o1.ctx.frows o1.newRows hbuild1) row hrow
    obtain ⟨e, he⟩ := buildNewRow_ok_end hbr
    constructor
    · rw [newRow_reg_cell hgood1 hreg1 he hbr]
      exact (findRowByValue_spec _ _ _ _ (phase1_ok_inv hp1).2.2.2.2.2).1
    · exact ⟨e, by rw [newRow_end_cell hgood1 hrend1 he hbr]; rfl,
        hAfter fr hfrmem e he⟩
  have hkeepPart := partitionRows_all_keep o1.ctx.erf o1.ctx.cutoff o1.regCol o1.rpEndCol
    o2.width
    ((partitionRows o1.ctx.erf o1.ctx.cutoff o1.regCol o1.rpEndCol o1.width
      ((o1.ensured : List (List Cell)).tail)).1)
    (partitionRows_rem_keep o1.ctx.erf o1.ctx.cutoff o1.regCol o1.rpEndCol o1.width
      ((o1.ensured : List (List Cell)).tail))
  have hdelPart := partitionRows_all_delete o1.ctx.erf o1.ctx.cutoff o1.regCol o1.rpEndCol
    o2.width o1.newRows hdelAll
  -- the second run rebuilds the identical ledger
  have hInvEq : o2.inventory = o1.inventory := by
    rw [ho2inv, ho2ens, hregEq, hrendEq, hnewEq, htail2, partitionRows_append]
    dsimp only
    rw [hkeepPart.1, hdelPart.1, List.append_nil, hhead]
    exact hinv.symm
  -- the second run's delta is zero
  have hlkaccu2 : lookupKey (_build_header_map ((o1.inventory : List (List Cell)).headD []))
      (pyLowerStr accuHeader) = some c := by
    rw [hcong2]
    exact hc1
  have hcmem : (pyLowerStr accuHeader, c) ∈ o1.ih := lookupKey_mem hc1
  have hc1le : 1 ≤ c := hgood1.2 _ hcmem
  have hcle : c ≤ ((o1.inventory : List (List Cell)).headD []).length := by
    rw [hih] at hcmem
    have := hensS.2.2.2.2.1 _ hcmem
    rw [hhead, hens]
    exact this
  have hltw : c - 1 < o2.width := by
    have hmx := maxCol_headD o1.inventory
    rw [ho2w]
    omega
  rw [show lastIdxOfStr REQUIRED_INVENTORY_HEADERS accuHeader = some 8 from by decide]
    at ho2newT
  dsimp only at ho2newT
  rw [hnewEq, ho2ih] at ho2cap
  rw [ho2ens, ho2w] at ho2snap
  rw [ho2snap, hc2] at ho2remT
  dsimp only at ho2remT
  rw [ho2ens, hregEq, hrendEq, htail2, partitionRows_append] at ho2del
  dsimp only at ho2del
  rw [hkeepPart.2, hdelPart.2, List.nil_append] at ho2del
  have hsum : sumFloatsAt o2.captured 8 = sumFloatsAt o2.deletedRows (c - 1) := by
    rw [ho2cap, ho2del]
    apply sumFloatsAt_maps
    intro r hr
    rw [captureRow_getD_accu _ r hlkaccu2, getD_row_as_list r o2.width (c - 1) hltw]
    rfl
  have hdeltaEq : o2.delta = 0 := by
    rw [ho2delta, ho2newT, ho2remT, hsum]
    exact sub_self _
  exact ⟨o2, hadd2.trans hrun2phase, hInvEq, hdeltaEq⟩

/-- Witness for C1: the amended idempotency theorem applied to the worked
example, whose forecast row ends after the cutoff, whose rebuilt ledger the
cleaner leaves untouched, and whose snapshot scan agrees with the header
map. -/
theorem C1_idempotency_witness :
    ∃ o2 : RunOut,
      add_forecast_to_inventory exForecast exPortfolio exOut.inventory exRunDate =
        Except.ok o2 ∧
      o2.inventory = exOut.inventory ∧ o2.delta = 0 :=
  C1_idempotency exForecast exPortfolio exLedger exRunDate exOut (by decide) (by decide)
    (by decide) ⟨4, by decide, by decide⟩

end EPF
